import Mathlib

/-!
Verification of the image-metadata parser in `src/lib/imageParser.ts`.

The TypeScript source is shallowly embedded: a Node `Buffer` is a `List Nat`
of bytes; the Node read accessors (`readUInt8`, `readUInt16LE/BE`,
`readUInt32LE/BE`, `readInt32LE`) return `Option Nat` / `Option Int`, with
`none` standing for the `RangeError` Node throws when the requested range
exceeds the buffer length; plain index access `buffer[i]` (which yields
`undefined` rather than throwing) is `byteAt`.  Decoders are
`Except String ImageMetadata` valued, `.error` standing for a thrown
exception.  JavaScript numbers that can be `NaN` or `Infinity` on the paths
modelled here (the JPEG color-depth product with an `undefined` operand, the
TIFF rational with zero denominator) live in `JSNum`; `Math.round` on the
float products `x * 2.54`, `x * 0.0254` and the quotient `n / d` is modelled
by exact rational arithmetic (round half up), which agrees with the IEEE-754
computation on all inputs relevant to the theorems below.  `Buffer.toString`
with the ascii codec masks each byte to 7 bits, as Node does.
-/

namespace ImageParser

/-- A JavaScript number as produced by the decoders: an integer, NaN, or
positive infinity. -/
inductive JSNum where
  | num : Int → JSNum
  | nan : JSNum
  | inf : JSNum
  deriving DecidableEq, Repr

/-- The `ImageMetadata` record of `src/types/image.ts` (the `compressed`
field declared there is never set by any parser, so the runtime objects lack
it; it is omitted).  `error` is the optional error string. -/
structure ImageMetadata where
  filename : String
  width : Int
  height : Int
  resolutionX : JSNum
  resolutionY : JSNum
  colorDepth : JSNum
  compression : String
  format : String
  error : Option String
  deriving DecidableEq, Repr

/-- A Node `Buffer`: a list of bytes. -/
abbrev Buf := List Nat

/-- Plain JS index access `buffer[i]`: `undefined` (here `none`) out of range,
never throws. -/
def byteAt (b : Buf) (i : Nat) : Option Nat := b.get? i

/-- `buffer.readUInt8(i)`: throws (here `none`) when `i + 1 > buffer.length`. -/
def readUInt8 (b : Buf) (i : Nat) : Option Nat := b.get? i

/-- `buffer.readUInt16LE(i)`. -/
def readUInt16LE (b : Buf) (i : Nat) : Option Nat := do
  let x0 ← b.get? i
  let x1 ← b.get? (i + 1)
  pure (x0 + 256 * x1)

/-- `buffer.readUInt16BE(i)`. -/
def readUInt16BE (b : Buf) (i : Nat) : Option Nat := do
  let x0 ← b.get? i
  let x1 ← b.get? (i + 1)
  pure (256 * x0 + x1)

/-- `buffer.readUInt32LE(i)`. -/
def readUInt32LE (b : Buf) (i : Nat) : Option Nat := do
  let x0 ← b.get? i
  let x1 ← b.get? (i + 1)
  let x2 ← b.get? (i + 2)
  let x3 ← b.get? (i + 3)
  pure (x0 + 256 * x1 + 65536 * x2 + 16777216 * x3)

/-- `buffer.readUInt32BE(i)`. -/
def readUInt32BE (b : Buf) (i : Nat) : Option Nat := do
  let x0 ← b.get? i
  let x1 ← b.get? (i + 1)
  let x2 ← b.get? (i + 2)
  let x3 ← b.get? (i + 3)
  pure (16777216 * x0 + 65536 * x1 + 256 * x2 + x3)

/-- `buffer.readInt32LE(i)`: the unsigned value reinterpreted as signed
two's-complement. -/
def readInt32LE (b : Buf) (i : Nat) : Option Int :=
  (readUInt32LE b i).map fun u =>
    if u < 2147483648 then (u : Int) else (u : Int) - 4294967296

/-- `buffer.toString('ascii', s, e)`: the byte range `[s, e)` clamped to the
buffer, each byte masked to 7 bits (Node's ascii codec). -/
def asciiSub (b : Buf) (s e : Nat) : List Nat :=
  ((b.drop s).take (e - s)).map (· % 128)

/-- Convert an `Option` read into the decoder's exception monad.  The message
stands for Node's RangeError message text. -/
def orThrow {α : Type} (o : Option α) (msg : String) : Except String α :=
  match o with
  | some a => Except.ok a
  | none => Except.error msg

/-- Stand-in for the RangeError message Node attaches to an out-of-range
read. -/
def rangeMsg : String := "offset is out of range"

/-- `Math.round(x * 0.0254)` for a non-negative integer `x` (pixels-per-meter
to DPI), with `0.0254` as the exact rational `254 / 10000`. -/
def roundPelsToDpi (x : Nat) : Nat := (254 * x + 5000) / 10000

/-- `Math.round(x * 2.54)` for a natural `x`, with `2.54` exact. -/
def roundCm (x : Nat) : Nat := (508 * x + 100) / 200

/-- `Math.round(x * 2.54)` for an integer `x` (floor of `x * 2.54 + 1/2`). -/
def roundCmInt (x : Int) : Int := (508 * x + 100).fdiv 200

/-- `Math.round(x * 2.54)` on a JS number. -/
def jsRoundCm : JSNum → JSNum
  | JSNum.num x => JSNum.num (roundCmInt x)
  | JSNum.nan => JSNum.nan
  | JSNum.inf => JSNum.inf

/-- `Math.round(n / d)` in JavaScript: division by zero yields `Infinity`
(or `NaN` for `0 / 0`); otherwise round half up of the exact quotient. -/
def jsRoundDiv (n d : Nat) : JSNum :=
  if d = 0 then (if n = 0 then JSNum.nan else JSNum.inf)
  else JSNum.num ((2 * n + d) / (2 * d) : Nat)

/-- JS multiplication of two possibly-`undefined` byte reads: if either
operand is `undefined` the product is `NaN`. -/
def jsMulByte (a c : Option Nat) : JSNum :=
  match a, c with
  | some x, some y => JSNum.num (x * y)
  | _, _ => JSNum.nan

/-- The BMP compression-code lookup table and the `|| Unknown (...)` default. -/
def bmpCompressionLabel (c : Nat) : String :=
  if c = 0 then "None (BI_RGB)"
  else if c = 1 then "RLE 8-bit"
  else if c = 2 then "RLE 4-bit"
  else if c = 3 then "Bitfields"
  else if c = 4 then "JPEG"
  else if c = 5 then "PNG"
  else "Unknown (" ++ toString c ++ ")"

/-- The `dibHeaderSize >= 40` resolution block of `parseBMP`: resolution is
stored in pixels per meter and converted to DPI only when positive. -/
def bmpResolution (b : Buf) (dibHeaderSize : Nat) : Except String (Nat × Nat) :=
  if 40 ≤ dibHeaderSize then do
    let xPelsPerMeter ← orThrow (readInt32LE b 38) rangeMsg
    let yPelsPerMeter ← orThrow (readInt32LE b 42) rangeMsg
    pure ((if 0 < xPelsPerMeter then roundPelsToDpi xPelsPerMeter.toNat else 72),
          (if 0 < yPelsPerMeter then roundPelsToDpi yPelsPerMeter.toNat else 72))
  else pure ((72 : Nat), (72 : Nat))

/-- `parseBMP` of `src/lib/imageParser.ts`. -/
def parseBMP (b : Buf) (filename : String) : Except String ImageMetadata :=
  if asciiSub b 0 2 = [66, 77] then do
    let dibHeaderSize ← orThrow (readUInt32LE b 14) rangeMsg
    let width ← orThrow (readInt32LE b 18) rangeMsg
    let storedHeight ← orThrow (readInt32LE b 22) rangeMsg
    let bitsPerPixel ← orThrow (readUInt16LE b 28) rangeMsg
    let compressionMethod ← orThrow (readUInt32LE b 30) rangeMsg
    let res ← bmpResolution b dibHeaderSize
    pure { filename := filename, width := width, height := (storedHeight.natAbs : Int),
           resolutionX := JSNum.num (res.1 : Int), resolutionY := JSNum.num (res.2 : Int),
           colorDepth := JSNum.num (bitsPerPixel : Int),
           compression := bmpCompressionLabel compressionMethod,
           format := "BMP", error := none }
  else Except.error "Not a valid BMP file"

/-- The fixed 8-byte PNG signature. -/
def pngSignature : List Nat := [137, 80, 78, 71, 13, 10, 26, 10]

/-- Derivation of the PNG color depth from bit depth and color type. -/
def pngColorDepth (bitDepth colorType : Nat) : Nat :=
  if colorType = 2 then bitDepth * 3
  else if colorType = 4 then bitDepth * 2
  else if colorType = 6 then bitDepth * 4
  else bitDepth

/-- The `pHYs`-scanning `while` loop of `parsePNG`, with an explicit fuel
argument (the loop advances by at least 12 bytes per iteration, so fuel
`b.length` is always enough; see `pngScan_fuel_irrelevant`).  The state is
the current `(resolutionX, resolutionY)` pair. -/
def pngScan (b : Buf) : Nat → Nat → Nat × Nat → Except String (Nat × Nat)
  | 0, _, r => Except.ok r
  | fuel + 1, o, r =>
    if o < b.length - 12 then do
      let chunkLength ← orThrow (readUInt32BE b o) rangeMsg
      let chunkType := asciiSub b (o + 4) (o + 8)
      if chunkType = [112, 72, 89, 115] then do
        let xPixelsPerUnit ← orThrow (readUInt32BE b (o + 8)) rangeMsg
        let yPixelsPerUnit ← orThrow (readUInt32BE b (o + 12)) rangeMsg
        let unit ← orThrow (readUInt8 b (o + 16)) rangeMsg
        if unit = 1 then
          pure (roundPelsToDpi xPixelsPerUnit, roundPelsToDpi yPixelsPerUnit)
        else pure r
      else
        pngScan b fuel (o + chunkLength + 12) r
    else Except.ok r

/-- `parsePNG` of `src/lib/imageParser.ts`. -/
def parsePNG (b : Buf) (filename : String) : Except String ImageMetadata :=
  if b.take 8 = pngSignature then do
    let width ← orThrow (readUInt32BE b 16) rangeMsg
    let height ← orThrow (readUInt32BE b 20) rangeMsg
    let bitDepth ← orThrow (readUInt8 b 24) rangeMsg
    let colorType ← orThrow (readUInt8 b 25) rangeMsg
    let compressionMethod ← orThrow (readUInt8 b 26) rangeMsg
    let res ← pngScan b b.length 8 (72, 72)
    pure { filename := filename, width := (width : Int), height := (height : Int),
           resolutionX := JSNum.num (res.1 : Int), resolutionY := JSNum.num (res.2 : Int),
           colorDepth := JSNum.num (pngColorDepth bitDepth colorType : Int),
           compression := if compressionMethod = 0 then "Deflate" else "Unknown",
           format := "PNG", error := none }
  else Except.error "Not a valid PNG file"

/-- The SOF-marker test of `parseJPEG`: `0xC0–0xCF` except `0xC4`, `0xC8`,
`0xCC`. -/
def isSOF (m : Nat) : Bool :=
  192 ≤ m && m ≤ 207 && m ≠ 196 && m ≠ 200 && m ≠ 204

/-- The mutable locals of `parseJPEG`'s marker walk. -/
structure JpegState where
  width : Nat
  height : Nat
  colorDepth : JSNum
  resX : Nat
  resY : Nat
  deriving DecidableEq, Repr

/-- The per-segment marker handling of `parseJPEG`'s walk at offset `o`: the
SOF branch and the JFIF APP0 branch, `pure s` for any other marker (and for
the unreachable `undefined` marker, see `jpegScan`). -/
def jpegSegment (b : Buf) (o : Nat) (s : JpegState) : Except String JpegState :=
  match byteAt b (o + 1) with
  | some m =>
    if isSOF m then do
      let precision := byteAt b (o + 4)
      let h ← orThrow (readUInt16BE b (o + 5)) rangeMsg
      let w ← orThrow (readUInt16BE b (o + 7)) rangeMsg
      let components := byteAt b (o + 9)
      pure { s with width := w, height := h,
                    colorDepth := jsMulByte precision components }
    else if m = 224 then do
      let identifier := asciiSub b (o + 4) (o + 9)
      if identifier = [74, 70, 73, 70, 0] then do
        let units := byteAt b (o + 11)
        let xDensity ← orThrow (readUInt16BE b (o + 12)) rangeMsg
        let yDensity ← orThrow (readUInt16BE b (o + 14)) rangeMsg
        if units = some 1 then
          pure { s with resX := xDensity, resY := yDensity }
        else if units = some 2 then
          pure { s with resX := roundCm xDensity, resY := roundCm yDensity }
        else pure s
      else pure s
    else pure s
  | none => pure s

/-- The marker-segment `while` loop of `parseJPEG`, with explicit fuel (the
loop advances by at least 2 bytes per iteration, so fuel `b.length` is always
enough; see `jpegScan_fuel_irrelevant`).  In the source, `marker` is read by
plain index (never throws, may be `undefined`) while the segment length read
throws when out of range; the `undefined`-marker branch of `jpegSegment` is
therefore unreachable, since `marker` is `undefined` only when the length
read, which comes first, is itself out of range. -/
def jpegScan (b : Buf) : Nat → Nat → JpegState → Except String JpegState
  | 0, _, s => Except.ok s
  | fuel + 1, o, s =>
    if o < b.length then
      if byteAt b o ≠ some 255 then Except.ok s
      else do
        let segmentLength ← orThrow (readUInt16BE b (o + 2)) rangeMsg
        let s' ← jpegSegment b o s
        jpegScan b fuel (o + segmentLength + 2) s'
    else Except.ok s

/-- `parseJPEG` of `src/lib/imageParser.ts`. -/
def parseJPEG (b : Buf) (filename : String) : Except String ImageMetadata :=
  if byteAt b 0 = some 255 ∧ byteAt b 1 = some 216 then do
    let s ← jpegScan b b.length 2 ⟨0, 0, JSNum.num 24, 72, 72⟩
    pure { filename := filename, width := (s.width : Int), height := (s.height : Int),
           resolutionX := JSNum.num (s.resX : Int), resolutionY := JSNum.num (s.resY : Int),
           colorDepth := s.colorDepth, compression := "JPEG",
           format := "JPEG", error := none }
  else Except.error "Not a valid JPEG file"

/-- `parseGIF` of `src/lib/imageParser.ts`. -/
def parseGIF (b : Buf) (filename : String) : Except String ImageMetadata :=
  if asciiSub b 0 6 = [71, 73, 70, 56, 55, 97] ∨ asciiSub b 0 6 = [71, 73, 70, 56, 57, 97] then do
    let width ← orThrow (readUInt16LE b 6) rangeMsg
    let height ← orThrow (readUInt16LE b 8) rangeMsg
    let packed ← orThrow (readUInt8 b 10) rangeMsg
    let globalColorTableFlag := (packed &&& 128) >>> 7
    let colorResolution := ((packed &&& 112) >>> 4) + 1
    let bitsPerPixel := (packed &&& 7) + 1
    let colorDepth := if globalColorTableFlag ≠ 0 then bitsPerPixel else colorResolution
    pure { filename := filename, width := (width : Int), height := (height : Int),
           resolutionX := JSNum.num 72, resolutionY := JSNum.num 72,
           colorDepth := JSNum.num (colorDepth : Int),
           compression := "LZW", format := "GIF", error := none }
  else Except.error "Not a valid GIF file"

/-- Endianness-selected 16-bit read used by `parseTIFF`. -/
def readU16 (le : Bool) (b : Buf) (i : Nat) : Option Nat :=
  if le then readUInt16LE b i else readUInt16BE b i

/-- Endianness-selected 32-bit read used by `parseTIFF`. -/
def readU32 (le : Bool) (b : Buf) (i : Nat) : Option Nat :=
  if le then readUInt32LE b i else readUInt32BE b i

/-- The mutable locals of `parseTIFF`'s IFD entry loop. -/
structure TiffState where
  width : Nat
  height : Nat
  resX : JSNum
  resY : JSNum
  bitsPerSample : Nat
  samplesPerPixel : Nat
  compression : Nat
  resolutionUnit : Nat
  deriving DecidableEq, Repr

/-- Initial values of `parseTIFF`'s locals. -/
def tiffInit : TiffState :=
  ⟨0, 0, JSNum.num 72, JSNum.num 72, 1, 1, 1, 2⟩

/-- One iteration of `parseTIFF`'s IFD entry loop: the 12-byte directory
entry at `entryOffset`.  The type and count fields are read (and can throw)
but are otherwise unused, as in the source. -/
def tiffEntry (le : Bool) (b : Buf) (entryOffset : Nat) (s : TiffState) :
    Except String TiffState := do
  let tag ← orThrow (readU16 le b entryOffset) rangeMsg
  let _ty ← orThrow (readU16 le b (entryOffset + 2)) rangeMsg
  let _count ← orThrow (readU32 le b (entryOffset + 4)) rangeMsg
  let valueOffset := entryOffset + 8
  if tag = 256 then do
    let w ← orThrow (readU32 le b valueOffset) rangeMsg
    pure { s with width := w }
  else if tag = 257 then do
    let h ← orThrow (readU32 le b valueOffset) rangeMsg
    pure { s with height := h }
  else if tag = 258 then do
    let v ← orThrow (readU16 le b valueOffset) rangeMsg
    pure { s with bitsPerSample := v }
  else if tag = 259 then do
    let v ← orThrow (readU16 le b valueOffset) rangeMsg
    pure { s with compression := v }
  else if tag = 277 then do
    let v ← orThrow (readU16 le b valueOffset) rangeMsg
    pure { s with samplesPerPixel := v }
  else if tag = 282 then do
    let off ← orThrow (readU32 le b valueOffset) rangeMsg
    let numerator ← orThrow (readU32 le b off) rangeMsg
    let denominator ← orThrow (readU32 le b (off + 4)) rangeMsg
    pure { s with resX := jsRoundDiv numerator denominator }
  else if tag = 283 then do
    let off ← orThrow (readU32 le b valueOffset) rangeMsg
    let numerator ← orThrow (readU32 le b off) rangeMsg
    let denominator ← orThrow (readU32 le b (off + 4)) rangeMsg
    pure { s with resY := jsRoundDiv numerator denominator }
  else if tag = 296 then do
    let v ← orThrow (readU16 le b valueOffset) rangeMsg
    pure { s with resolutionUnit := v }
  else pure s

/-- The IFD entry loop: `n` remaining entries starting at `entryOffset`. -/
def tiffLoop (le : Bool) (b : Buf) : Nat → Nat → TiffState → Except String TiffState
  | 0, _, s => Except.ok s
  | n + 1, entryOffset, s => do
    let s' ← tiffEntry le b entryOffset s
    tiffLoop le b n (entryOffset + 12) s'

/-- The TIFF compression-code lookup table and the `|| Unknown (...)`
default. -/
def tiffCompressionLabel (c : Nat) : String :=
  if c = 1 then "None"
  else if c = 2 then "CCITT Group 3"
  else if c = 3 then "CCITT Group 4"
  else if c = 4 then "LZW"
  else if c = 5 then "JPEG (old)"
  else if c = 6 then "JPEG"
  else if c = 7 then "JPEG"
  else if c = 8 then "Deflate"
  else if c = 32773 then "PackBits"
  else "Unknown (" ++ toString c ++ ")"

/-- `parseTIFF` of `src/lib/imageParser.ts`. -/
def parseTIFF (b : Buf) (filename : String) : Except String ImageMetadata :=
  let byteOrder := asciiSub b 0 2
  let le := byteOrder = [73, 73]
  if byteOrder = [73, 73] ∨ byteOrder = [77, 77] then do
    let magic ← orThrow (readU16 le b 2) rangeMsg
    if magic = 42 then do
      let ifdOffset ← orThrow (readU32 le b 4) rangeMsg
      let numEntries ← orThrow (readU16 le b ifdOffset) rangeMsg
      let s ← tiffLoop le b numEntries (ifdOffset + 2) tiffInit
      let resX := if s.resolutionUnit = 3 then jsRoundCm s.resX else s.resX
      let resY := if s.resolutionUnit = 3 then jsRoundCm s.resY else s.resY
      pure { filename := filename, width := (s.width : Int), height := (s.height : Int),
             resolutionX := resX, resolutionY := resY,
             colorDepth := JSNum.num (s.bitsPerSample * s.samplesPerPixel : Nat),
             compression := tiffCompressionLabel s.compression,
             format := "TIFF", error := none }
    else Except.error "Not a valid TIFF file"
  else Except.error "Not a valid TIFF file"

/-- `parsePCX` of `src/lib/imageParser.ts`. -/
def parsePCX (b : Buf) (filename : String) : Except String ImageMetadata := do
  let manufacturer ← orThrow (readUInt8 b 0) rangeMsg
  if manufacturer = 10 then do
    let _version ← orThrow (readUInt8 b 1) rangeMsg
    let encoding ← orThrow (readUInt8 b 2) rangeMsg
    let bitsPerPixel ← orThrow (readUInt8 b 3) rangeMsg
    let xMin ← orThrow (readUInt16LE b 4) rangeMsg
    let yMin ← orThrow (readUInt16LE b 6) rangeMsg
    let xMax ← orThrow (readUInt16LE b 8) rangeMsg
    let yMax ← orThrow (readUInt16LE b 10) rangeMsg
    let hDpi ← orThrow (readUInt16LE b 12) rangeMsg
    let vDpi ← orThrow (readUInt16LE b 14) rangeMsg
    let nPlanes ← orThrow (readUInt8 b 65) rangeMsg
    pure { filename := filename,
           width := (xMax : Int) - (xMin : Int) + 1,
           height := (yMax : Int) - (yMin : Int) + 1,
           resolutionX := JSNum.num (if hDpi = 0 then 72 else (hDpi : Int)),
           resolutionY := JSNum.num (if vDpi = 0 then 72 else (vDpi : Int)),
           colorDepth := JSNum.num (bitsPerPixel * nPlanes : Nat),
           compression := if encoding = 1 then "RLE" else "None",
           format := "PCX", error := none }
  else Except.error "Not a valid PCX file"

/-- The JS `filename.toLowerCase().split('.')` for the one-character
separator, over the character list. -/
def splitDot : List Char → List (List Char)
  | [] => [[]]
  | c :: rest =>
    match splitDot rest with
    | [] => [[]]
    | g :: gs => if c = '.' then [] :: g :: gs else (c :: g) :: gs

/-- JS `String.prototype.toUpperCase` restricted to ASCII, as a structural
map over the character list (`String.toUpper` itself is not
kernel-reducible). -/
def toUpperStr (s : String) : String := String.mk (s.data.map Char.toUpper)

/-- The dispatcher's extension derivation:
`filename.toLowerCase().split('.').pop() || ''`.  `Char.toLower` matches
`toLowerCase` on the ASCII names considered here. -/
def extOf (filename : String) : String :=
  String.mk ((splitDot (filename.data.map Char.toLower)).getLastD [])

/-- The `switch` plus decoder invocation inside `parseImageMetadata`, before
the `catch`. -/
def dispatchResult (b : Buf) (filename : String) : Except String ImageMetadata :=
  if extOf filename = "bmp" then parseBMP b filename
  else if extOf filename = "png" then parsePNG b filename
  else if extOf filename = "jpg" ∨ extOf filename = "jpeg" then parseJPEG b filename
  else if extOf filename = "gif" then parseGIF b filename
  else if extOf filename = "tif" ∨ extOf filename = "tiff" then parseTIFF b filename
  else if extOf filename = "pcx" then parsePCX b filename
  else Except.error ("Unsupported format: " ++ extOf filename)

/-- `parseImageMetadata` of `src/lib/imageParser.ts`: dispatch on the
extension and convert any thrown failure into the zero-valued error
record. -/
def parseImageMetadata (b : Buf) (filename : String) : ImageMetadata :=
  match dispatchResult b filename with
  | Except.ok m => m
  | Except.error e =>
    { filename := filename, width := 0, height := 0,
      resolutionX := JSNum.num 0, resolutionY := JSNum.num 0,
      colorDepth := JSNum.num 0, compression := "N/A",
      format := toUpperStr (extOf filename), error := some e }

/-! ### Basic lemmas about the byte reads and the exception monad -/

instance {ε α : Type} [DecidableEq ε] [DecidableEq α] : DecidableEq (Except ε α) := fun x y =>
  match x, y with
  | Except.ok a, Except.ok b =>
    if h : a = b then isTrue (by rw [h]) else isFalse (by intro hc; cases hc; exact h rfl)
  | Except.ok _, Except.error _ => isFalse (by intro hc; cases hc)
  | Except.error _, Except.ok _ => isFalse (by intro hc; cases hc)
  | Except.error e, Except.error f =>
    if h : e = f then isTrue (by rw [h]) else isFalse (by intro hc; cases hc; exact h rfl)

theorem orThrow_some {α : Type} (a : α) (msg : String) :
    orThrow (some a) msg = Except.ok a := rfl

theorem orThrow_nonec {α : Type} (msg : String) :
    orThrow (none : Option α) msg = Except.error msg := rfl

theorem ok_bind {α β : Type} (a : α) (f : α → Except String β) :
    (Except.ok a : Except String α) >>= f = f a := rfl

theorem error_bind {α β : Type} (e : String) (f : α → Except String β) :
    (Except.error e : Except String α) >>= f = Except.error e := rfl

theorem bindOk {α β : Type} {x : Except String α} {f : α → Except String β} {c : β}
    (h : x >>= f = Except.ok c) : ∃ a, x = Except.ok a ∧ f a = Except.ok c := by
  cases x with
  | ok a => exact ⟨a, rfl, h⟩
  | error e => exact absurd h (by intro hc; cases hc)

theorem byteAt_none {b : Buf} {i : Nat} (h : b.length ≤ i) : byteAt b i = none :=
  List.get?_eq_none.mpr h

theorem byteAt_some_lt {b : Buf} {i : Nat} {v : Nat} (h : byteAt b i = some v) :
    i < b.length := (List.get?_eq_some.mp h).1

theorem readUInt8_none {b : Buf} {i : Nat} (h : b.length < i + 1) : readUInt8 b i = none :=
  List.get?_eq_none.mpr (by omega)

theorem readUInt8_some_le {b : Buf} {i v : Nat} (h : readUInt8 b i = some v) :
    i + 1 ≤ b.length := (List.get?_eq_some.mp h).1

theorem readUInt16LE_none {b : Buf} {i : Nat} (h : b.length < i + 2) :
    readUInt16LE b i = none := by
  unfold readUInt16LE
  rcases h0 : b.get? i with _ | x0
  · rfl
  · have h1 : b.get? (i + 1) = none := by
      have := (List.get?_eq_some.mp h0).1
      exact List.get?_eq_none.mpr (by omega)
    rw [List.get?_eq_getElem?] at h0 h1
    simp [h0, h1]

theorem readUInt16LE_some_le {b : Buf} {i v : Nat} (h : readUInt16LE b i = some v) :
    i + 2 ≤ b.length := by
  unfold readUInt16LE at h
  rcases h0 : b.get? i with _ | x0 <;> rw [h0] at h
  · simp at h
  · rcases h1 : b.get? (i + 1) with _ | x1 <;> rw [h1] at h
    · simp at h
    · have := (List.get?_eq_some.mp h1).1
      omega

theorem readUInt16BE_none {b : Buf} {i : Nat} (h : b.length < i + 2) :
    readUInt16BE b i = none := by
  unfold readUInt16BE
  rcases h0 : b.get? i with _ | x0
  · rfl
  · have h1 : b.get? (i + 1) = none := by
      have := (List.get?_eq_some.mp h0).1
      exact List.get?_eq_none.mpr (by omega)
    rw [List.get?_eq_getElem?] at h0 h1
    simp [h0, h1]

theorem readUInt16BE_some_le {b : Buf} {i v : Nat} (h : readUInt16BE b i = some v) :
    i + 2 ≤ b.length := by
  unfold readUInt16BE at h
  rcases h0 : b.get? i with _ | x0 <;> rw [h0] at h
  · simp at h
  · rcases h1 : b.get? (i + 1) with _ | x1 <;> rw [h1] at h
    · simp at h
    · have := (List.get?_eq_some.mp h1).1
      omega

theorem readUInt32LE_none {b : Buf} {i : Nat} (h : b.length < i + 4) :
    readUInt32LE b i = none := by
  unfold readUInt32LE
  rcases h0 : b.get? i with _ | x0
  · rfl
  · have hlt := (List.get?_eq_some.mp h0).1
    rcases h1 : b.get? (i + 1) with _ | x1
    · simp [h0, h1]
    · rcases h2 : b.get? (i + 2) with _ | x2
      · simp [h0, h1, h2]
      · have h3 : b.get? (i + 3) = none := by
          have := (List.get?_eq_some.mp h2).1
          exact List.get?_eq_none.mpr (by omega)
        rw [List.get?_eq_getElem?] at h0 h1 h2 h3
        simp [h0, h1, h2, h3]

theorem readUInt32LE_some_le {b : Buf} {i v : Nat} (h : readUInt32LE b i = some v) :
    i + 4 ≤ b.length := by
  unfold readUInt32LE at h
  rcases h0 : b.get? i with _ | x0 <;> rw [h0] at h
  · simp at h
  · rcases h1 : b.get? (i + 1) with _ | x1 <;> rw [h1] at h
    · simp at h
    · rcases h2 : b.get? (i + 2) with _ | x2 <;> rw [h2] at h
      · simp at h
      · rcases h3 : b.get? (i + 3) with _ | x3 <;> rw [h3] at h
        · simp at h
        · have := (List.get?_eq_some.mp h3).1
          omega

theorem readUInt32BE_none {b : Buf} {i : Nat} (h : b.length < i + 4) :
    readUInt32BE b i = none := by
  unfold readUInt32BE
  rcases h0 : b.get? i with _ | x0
  · rfl
  · have hlt := (List.get?_eq_some.mp h0).1
    rcases h1 : b.get? (i + 1) with _ | x1
    · simp [h0, h1]
    · rcases h2 : b.get? (i + 2) with _ | x2
      · simp [h0, h1, h2]
      · have h3 : b.get? (i + 3) = none := by
          have := (List.get?_eq_some.mp h2).1
          exact List.get?_eq_none.mpr (by omega)
        rw [List.get?_eq_getElem?] at h0 h1 h2 h3
        simp [h0, h1, h2, h3]

theorem readUInt32BE_some_le {b : Buf} {i v : Nat} (h : readUInt32BE b i = some v) :
    i + 4 ≤ b.length := by
  unfold readUInt32BE at h
  rcases h0 : b.get? i with _ | x0 <;> rw [h0] at h
  · simp at h
  · rcases h1 : b.get? (i + 1) with _ | x1 <;> rw [h1] at h
    · simp at h
    · rcases h2 : b.get? (i + 2) with _ | x2 <;> rw [h2] at h
      · simp at h
      · rcases h3 : b.get? (i + 3) with _ | x3 <;> rw [h3] at h
        · simp at h
        · have := (List.get?_eq_some.mp h3).1
          omega

theorem readInt32LE_none {b : Buf} {i : Nat} (h : b.length < i + 4) :
    readInt32LE b i = none := by
  unfold readInt32LE
  rw [readUInt32LE_none h]
  rfl

theorem readInt32LE_some_le {b : Buf} {i : Nat} {v : Int} (h : readInt32LE b i = some v) :
    i + 4 ≤ b.length := by
  unfold readInt32LE at h
  rcases h0 : readUInt32LE b i with _ | u <;> rw [h0] at h
  · simp at h
  · exact readUInt32LE_some_le h0

theorem readU16_none {le : Bool} {b : Buf} {i : Nat} (h : b.length < i + 2) :
    readU16 le b i = none := by
  unfold readU16
  cases le <;> simp [readUInt16LE_none h, readUInt16BE_none h]

theorem readU32_none {le : Bool} {b : Buf} {i : Nat} (h : b.length < i + 4) :
    readU32 le b i = none := by
  unfold readU32
  cases le <;> simp [readUInt32LE_none h, readUInt32BE_none h]

/-! ### Inversion lemmas: what a successful decoder result looks like -/

theorem orThrow_ok_iff {α : Type} {o : Option α} {msg : String} {a : α} :
    orThrow o msg = Except.ok a ↔ o = some a := by
  cases o <;> simp [orThrow]

theorem parseBMP_ok {b : Buf} {fn : String} {m : ImageMetadata}
    (h : parseBMP b fn = Except.ok m) :
    ∃ (dib : Nat) (w ht : Int) (bpp cm : Nat) (res : Nat × Nat),
      readUInt32LE b 14 = some dib ∧ readInt32LE b 18 = some w ∧
      readInt32LE b 22 = some ht ∧ readUInt16LE b 28 = some bpp ∧
      readUInt32LE b 30 = some cm ∧ bmpResolution b dib = Except.ok res ∧
      m = { filename := fn, width := w, height := (ht.natAbs : Int),
            resolutionX := JSNum.num (res.1 : Int), resolutionY := JSNum.num (res.2 : Int),
            colorDepth := JSNum.num (bpp : Int),
            compression := bmpCompressionLabel cm, format := "BMP", error := none } := by
  unfold parseBMP at h
  by_cases hs : asciiSub b 0 2 = [66, 77]
  · rw [if_pos hs] at h
    obtain ⟨dib, hdib, h⟩ := bindOk h
    obtain ⟨w, hw, h⟩ := bindOk h
    obtain ⟨ht, hht, h⟩ := bindOk h
    obtain ⟨bpp, hbpp, h⟩ := bindOk h
    obtain ⟨cm, hcm, h⟩ := bindOk h
    obtain ⟨res, hres, h⟩ := bindOk h
    rw [orThrow_ok_iff] at hdib hw hht hbpp hcm
    cases h
    exact ⟨dib, w, ht, bpp, cm, res, hdib, hw, hht, hbpp, hcm, hres, rfl⟩
  · rw [if_neg hs] at h
    cases h

theorem parsePNG_ok {b : Buf} {fn : String} {m : ImageMetadata}
    (h : parsePNG b fn = Except.ok m) :
    ∃ (w ht bd ct cm : Nat) (res : Nat × Nat),
      readUInt32BE b 16 = some w ∧ readUInt32BE b 20 = some ht ∧
      readUInt8 b 24 = some bd ∧ readUInt8 b 25 = some ct ∧
      readUInt8 b 26 = some cm ∧ pngScan b b.length 8 (72, 72) = Except.ok res ∧
      m = { filename := fn, width := (w : Int), height := (ht : Int),
            resolutionX := JSNum.num (res.1 : Int), resolutionY := JSNum.num (res.2 : Int),
            colorDepth := JSNum.num (pngColorDepth bd ct : Int),
            compression := if cm = 0 then "Deflate" else "Unknown",
            format := "PNG", error := none } := by
  unfold parsePNG at h
  by_cases hs : b.take 8 = pngSignature
  · rw [if_pos hs] at h
    obtain ⟨w, hw, h⟩ := bindOk h
    obtain ⟨ht, hht, h⟩ := bindOk h
    obtain ⟨bd, hbd, h⟩ := bindOk h
    obtain ⟨ct, hct, h⟩ := bindOk h
    obtain ⟨cm, hcm, h⟩ := bindOk h
    obtain ⟨res, hres, h⟩ := bindOk h
    rw [orThrow_ok_iff] at hw hht hbd hct hcm
    cases h
    exact ⟨w, ht, bd, ct, cm, res, hw, hht, hbd, hct, hcm, hres, rfl⟩
  · rw [if_neg hs] at h
    cases h

theorem parseJPEG_ok {b : Buf} {fn : String} {m : ImageMetadata}
    (h : parseJPEG b fn = Except.ok m) :
    ∃ s : JpegState, byteAt b 0 = some 255 ∧ byteAt b 1 = some 216 ∧
      jpegScan b b.length 2 ⟨0, 0, JSNum.num 24, 72, 72⟩ = Except.ok s ∧
      m = { filename := fn, width := (s.width : Int), height := (s.height : Int),
            resolutionX := JSNum.num (s.resX : Int), resolutionY := JSNum.num (s.resY : Int),
            colorDepth := s.colorDepth, compression := "JPEG",
            format := "JPEG", error := none } := by
  unfold parseJPEG at h
  by_cases hs : byteAt b 0 = some 255 ∧ byteAt b 1 = some 216
  · rw [if_pos hs] at h
    obtain ⟨s, hscan, h⟩ := bindOk h
    cases h
    exact ⟨s, hs.1, hs.2, hscan, rfl⟩
  · rw [if_neg hs] at h
    cases h

theorem parseGIF_ok {b : Buf} {fn : String} {m : ImageMetadata}
    (h : parseGIF b fn = Except.ok m) :
    ∃ w ht packed : Nat,
      readUInt16LE b 6 = some w ∧ readUInt16LE b 8 = some ht ∧
      readUInt8 b 10 = some packed ∧
      m = { filename := fn, width := (w : Int), height := (ht : Int),
            resolutionX := JSNum.num 72, resolutionY := JSNum.num 72,
            colorDepth := JSNum.num
              ((if (packed &&& 128) >>> 7 ≠ 0 then (packed &&& 7) + 1
                else ((packed &&& 112) >>> 4) + 1 : Nat) : Int),
            compression := "LZW", format := "GIF", error := none } := by
  unfold parseGIF at h
  by_cases hs : asciiSub b 0 6 = [71, 73, 70, 56, 55, 97] ∨
      asciiSub b 0 6 = [71, 73, 70, 56, 57, 97]
  · rw [if_pos hs] at h
    obtain ⟨w, hw, h⟩ := bindOk h
    obtain ⟨ht, hht, h⟩ := bindOk h
    obtain ⟨packed, hp, h⟩ := bindOk h
    rw [orThrow_ok_iff] at hw hht hp
    cases h
    exact ⟨w, ht, packed, hw, hht, hp, rfl⟩
  · rw [if_neg hs] at h
    cases h

theorem parseTIFF_ok {b : Buf} {fn : String} {m : ImageMetadata}
    (h : parseTIFF b fn = Except.ok m) :
    ∃ (ifd n : Nat) (s : TiffState),
      (asciiSub b 0 2 = [73, 73] ∨ asciiSub b 0 2 = [77, 77]) ∧
      readU16 (asciiSub b 0 2 = [73, 73]) b 2 = some 42 ∧
      readU32 (asciiSub b 0 2 = [73, 73]) b 4 = some ifd ∧
      readU16 (asciiSub b 0 2 = [73, 73]) b ifd = some n ∧
      tiffLoop (asciiSub b 0 2 = [73, 73]) b n (ifd + 2) tiffInit = Except.ok s ∧
      m = { filename := fn, width := (s.width : Int), height := (s.height : Int),
            resolutionX := if s.resolutionUnit = 3 then jsRoundCm s.resX else s.resX,
            resolutionY := if s.resolutionUnit = 3 then jsRoundCm s.resY else s.resY,
            colorDepth := JSNum.num ((s.bitsPerSample * s.samplesPerPixel : Nat) : Int),
            compression := tiffCompressionLabel s.compression,
            format := "TIFF", error := none } := by
  unfold parseTIFF at h
  simp only [] at h
  by_cases hs : asciiSub b 0 2 = [73, 73] ∨ asciiSub b 0 2 = [77, 77]
  · rw [if_pos hs] at h
    obtain ⟨magic, hm, h⟩ := bindOk h
    rw [orThrow_ok_iff] at hm
    by_cases h42 : magic = 42
    · subst h42
      rw [if_pos rfl] at h
      obtain ⟨ifd, hifd, h⟩ := bindOk h
      obtain ⟨n, hn, h⟩ := bindOk h
      obtain ⟨s, hloop, h⟩ := bindOk h
      rw [orThrow_ok_iff] at hifd hn
      cases h
      exact ⟨ifd, n, s, hs, hm, hifd, hn, hloop, rfl⟩
    · rw [if_neg h42] at h
      cases h
  · rw [if_neg hs] at h
    cases h

theorem parsePCX_ok {b : Buf} {fn : String} {m : ImageMetadata}
    (h : parsePCX b fn = Except.ok m) :
    ∃ enc bpp xMin yMin xMax yMax hDpi vDpi nPlanes : Nat,
      readUInt8 b 0 = some 10 ∧ readUInt8 b 2 = some enc ∧ readUInt8 b 3 = some bpp ∧
      readUInt16LE b 4 = some xMin ∧ readUInt16LE b 6 = some yMin ∧
      readUInt16LE b 8 = some xMax ∧ readUInt16LE b 10 = some yMax ∧
      readUInt16LE b 12 = some hDpi ∧ readUInt16LE b 14 = some vDpi ∧
      readUInt8 b 65 = some nPlanes ∧
      m = { filename := fn,
            width := (xMax : Int) - (xMin : Int) + 1,
            height := (yMax : Int) - (yMin : Int) + 1,
            resolutionX := JSNum.num (if hDpi = 0 then 72 else (hDpi : Int)),
            resolutionY := JSNum.num (if vDpi = 0 then 72 else (vDpi : Int)),
            colorDepth := JSNum.num ((bpp * nPlanes : Nat) : Int),
            compression := if enc = 1 then "RLE" else "None",
            format := "PCX", error := none } := by
  unfold parsePCX at h
  obtain ⟨man, hman, h⟩ := bindOk h
  rw [orThrow_ok_iff] at hman
  by_cases h10 : man = 10
  · subst h10
    rw [if_pos rfl] at h
    obtain ⟨ver, hver, h⟩ := bindOk h
    obtain ⟨enc, henc, h⟩ := bindOk h
    obtain ⟨bpp, hbpp, h⟩ := bindOk h
    obtain ⟨xMin, hx0, h⟩ := bindOk h
    obtain ⟨yMin, hy0, h⟩ := bindOk h
    obtain ⟨xMax, hx1, h⟩ := bindOk h
    obtain ⟨yMax, hy1, h⟩ := bindOk h
    obtain ⟨hDpi, hhd, h⟩ := bindOk h
    obtain ⟨vDpi, hvd, h⟩ := bindOk h
    obtain ⟨nPlanes, hnp, h⟩ := bindOk h
    rw [orThrow_ok_iff] at henc hbpp hx0 hy0 hx1 hy1 hhd hvd hnp
    cases h
    exact ⟨enc, bpp, xMin, yMin, xMax, yMax, hDpi, vDpi, nPlanes,
      hman, henc, hbpp, hx0, hy0, hx1, hy1, hhd, hvd, hnp, rfl⟩
  · rw [if_neg h10] at h
    cases h

/-! ### Dispatcher lemmas -/

/-- The zero-valued error record the dispatcher builds in its catch block. -/
def errorRecord (fn e : String) : ImageMetadata :=
  { filename := fn, width := 0, height := 0,
    resolutionX := JSNum.num 0, resolutionY := JSNum.num 0,
    colorDepth := JSNum.num 0, compression := "N/A",
    format := toUpperStr (extOf fn), error := some e }

theorem parseImageMetadata_of_error {b : Buf} {fn e : String}
    (h : dispatchResult b fn = Except.error e) :
    parseImageMetadata b fn = errorRecord fn e := by
  unfold parseImageMetadata
  rw [h]
  rfl

theorem parseImageMetadata_of_ok {b : Buf} {fn : String} {m : ImageMetadata}
    (h : dispatchResult b fn = Except.ok m) :
    parseImageMetadata b fn = m := by
  unfold parseImageMetadata
  rw [h]

theorem dispatch_bmp {b : Buf} {fn : String} (h : extOf fn = "bmp") :
    dispatchResult b fn = parseBMP b fn := by
  unfold dispatchResult
  rw [h]
  simp

theorem dispatch_png {b : Buf} {fn : String} (h : extOf fn = "png") :
    dispatchResult b fn = parsePNG b fn := by
  unfold dispatchResult
  rw [h]
  simp

theorem dispatch_jpeg {b : Buf} {fn : String} (h : extOf fn = "jpg" ∨ extOf fn = "jpeg") :
    dispatchResult b fn = parseJPEG b fn := by
  unfold dispatchResult
  rcases h with h | h <;> rw [h] <;> simp

theorem dispatch_gif {b : Buf} {fn : String} (h : extOf fn = "gif") :
    dispatchResult b fn = parseGIF b fn := by
  unfold dispatchResult
  rw [h]
  simp

theorem dispatch_tiff {b : Buf} {fn : String} (h : extOf fn = "tif" ∨ extOf fn = "tiff") :
    dispatchResult b fn = parseTIFF b fn := by
  unfold dispatchResult
  rcases h with h | h <;> rw [h] <;> simp

theorem dispatch_pcx {b : Buf} {fn : String} (h : extOf fn = "pcx") :
    dispatchResult b fn = parsePCX b fn := by
  unfold dispatchResult
  rw [h]
  simp

/-! ### Short-buffer lemmas: each decoder throws on a buffer shorter than the
bytes it reads -/

theorem readU16_some_le {le : Bool} {b : Buf} {i v : Nat} (h : readU16 le b i = some v) :
    i + 2 ≤ b.length := by
  unfold readU16 at h
  cases le
  · exact readUInt16BE_some_le (by simpa using h)
  · exact readUInt16LE_some_le (by simpa using h)

theorem readU32_some_le {le : Bool} {b : Buf} {i v : Nat} (h : readU32 le b i = some v) :
    i + 4 ≤ b.length := by
  unfold readU32 at h
  cases le
  · exact readUInt32BE_some_le (by simpa using h)
  · exact readUInt32LE_some_le (by simpa using h)

theorem parseBMP_short {b : Buf} {fn : String} (h : b.length < 34) :
    ∃ e, parseBMP b fn = Except.error e := by
  cases hp : parseBMP b fn with
  | error e => exact ⟨e, rfl⟩
  | ok m =>
    obtain ⟨dib, w, ht, bpp, cm, res, _, _, _, _, hcm, _, _⟩ := parseBMP_ok hp
    have := readUInt32LE_some_le hcm
    omega

theorem parsePNG_short {b : Buf} {fn : String} (h : b.length < 27) :
    ∃ e, parsePNG b fn = Except.error e := by
  cases hp : parsePNG b fn with
  | error e => exact ⟨e, rfl⟩
  | ok m =>
    obtain ⟨w, ht, bd, ct, cm, res, _, _, _, _, hcm, _, _⟩ := parsePNG_ok hp
    have := readUInt8_some_le hcm
    omega

theorem parseJPEG_short {b : Buf} {fn : String} (h : b.length < 2) :
    ∃ e, parseJPEG b fn = Except.error e := by
  cases hp : parseJPEG b fn with
  | error e => exact ⟨e, rfl⟩
  | ok m =>
    obtain ⟨s, h0, h1, _, _⟩ := parseJPEG_ok hp
    have := byteAt_some_lt h1
    omega

theorem parseGIF_short {b : Buf} {fn : String} (h : b.length < 11) :
    ∃ e, parseGIF b fn = Except.error e := by
  cases hp : parseGIF b fn with
  | error e => exact ⟨e, rfl⟩
  | ok m =>
    obtain ⟨w, ht, packed, _, _, hp10, _⟩ := parseGIF_ok hp
    have := readUInt8_some_le hp10
    omega

theorem parseTIFF_short {b : Buf} {fn : String} (h : b.length < 8) :
    ∃ e, parseTIFF b fn = Except.error e := by
  cases hp : parseTIFF b fn with
  | error e => exact ⟨e, rfl⟩
  | ok m =>
    obtain ⟨ifd, n, s, _, _, hifd, _, _, _⟩ := parseTIFF_ok hp
    have := readU32_some_le hifd
    omega

theorem parsePCX_short {b : Buf} {fn : String} (h : b.length < 66) :
    ∃ e, parsePCX b fn = Except.error e := by
  cases hp : parsePCX b fn with
  | error e => exact ⟨e, rfl⟩
  | ok m =>
    obtain ⟨enc, bpp, xMin, yMin, xMax, yMax, hD, vD, nP,
      _, _, _, _, _, _, _, _, _, hnp, _⟩ := parsePCX_ok hp
    have := readUInt8_some_le hnp
    omega

/-- A record with `error` set and all five numeric fields zero. -/
def isZeroError (r : ImageMetadata) : Prop :=
  r.error.isSome = true ∧ r.width = 0 ∧ r.height = 0 ∧
  r.resolutionX = JSNum.num 0 ∧ r.resolutionY = JSNum.num 0 ∧
  r.colorDepth = JSNum.num 0

theorem errorRecord_isZeroError (fn e : String) : isZeroError (errorRecord fn e) := by
  unfold isZeroError errorRecord
  simp

/-! ### Claim C1 -/

/-- C1: for every byte buffer and filename, the dispatcher `parseImageMetadata`
returns a `MetadataRecord` and never throws (it is a total function into
records): on any decode failure the returned record has the `error` field set
to the failure message, `width`, `height`, `resolutionX`, `resolutionY` and
`colorDepth` all 0, `compression` the literal "N/A", and `format` the
uppercased extension; and a record without the `error` field is never
produced by the failure path (an error-free record always comes from a
successful decoder result). -/
theorem claim1_dispatcher_never_fails :
    ∀ (b : Buf) (fn : String),
      (∀ e, dispatchResult b fn = Except.error e →
        parseImageMetadata b fn =
          { filename := fn, width := 0, height := 0,
            resolutionX := JSNum.num 0, resolutionY := JSNum.num 0,
            colorDepth := JSNum.num 0, compression := "N/A",
            format := toUpperStr (extOf fn), error := some e }) ∧
      ((parseImageMetadata b fn).error = none →
        dispatchResult b fn = Except.ok (parseImageMetadata b fn)) := by
  intro b fn
  constructor
  · intro e he
    exact parseImageMetadata_of_error he
  · intro hnone
    cases hd : dispatchResult b fn with
    | ok m =>
      rw [parseImageMetadata_of_ok hd]
    | error e =>
      rw [parseImageMetadata_of_error hd] at hnone
      simp [errorRecord] at hnone

/-- Witness for C1 at a concrete failing input: an empty buffer with a
`.png` name yields exactly the zero-valued error record. -/
theorem claim1_witness :
    parseImageMetadata [] "x.png" =
      { filename := "x.png", width := 0, height := 0,
        resolutionX := JSNum.num 0, resolutionY := JSNum.num 0,
        colorDepth := JSNum.num 0, compression := "N/A",
        format := "PNG", error := some "Not a valid PNG file" } := by
  have h := (claim1_dispatcher_never_fails [] "x.png").1 "Not a valid PNG file" (by rfl)
  rw [h]
  decide

/-! ### Claim C2 -/

/-- C2: for each of the six formats, every buffer shorter than that format's
minimum header size (the number of bytes the decoder must read: 34 for BMP,
27 for PNG, 2 for JPEG, 11 for GIF, 8 for TIFF, 66 for PCX), dispatched with
a matching extension, yields a record with the `error` field set and all five
numeric fields zero; and every primitive read whose requested range exceeds
the buffer length fails (returns `none`, the model of the thrown RangeError)
rather than silently returning a value. -/
theorem claim2_short_buffer_error :
    (∀ (b : Buf) (fn : String), extOf fn = "bmp" → b.length < 34 →
      isZeroError (parseImageMetadata b fn)) ∧
    (∀ (b : Buf) (fn : String), extOf fn = "png" → b.length < 27 →
      isZeroError (parseImageMetadata b fn)) ∧
    (∀ (b : Buf) (fn : String), extOf fn = "jpg" ∨ extOf fn = "jpeg" → b.length < 2 →
      isZeroError (parseImageMetadata b fn)) ∧
    (∀ (b : Buf) (fn : String), extOf fn = "gif" → b.length < 11 →
      isZeroError (parseImageMetadata b fn)) ∧
    (∀ (b : Buf) (fn : String), extOf fn = "tif" ∨ extOf fn = "tiff" → b.length < 8 →
      isZeroError (parseImageMetadata b fn)) ∧
    (∀ (b : Buf) (fn : String), extOf fn = "pcx" → b.length < 66 →
      isZeroError (parseImageMetadata b fn)) ∧
    (∀ (b : Buf) (i : Nat), b.length < i + 1 → readUInt8 b i = none) ∧
    (∀ (b : Buf) (i : Nat), b.length < i + 2 →
      readUInt16LE b i = none ∧ readUInt16BE b i = none) ∧
    (∀ (b : Buf) (i : Nat), b.length < i + 4 →
      readUInt32LE b i = none ∧ readUInt32BE b i = none ∧ readInt32LE b i = none) := by
  refine ⟨?_, ?_, ?_, ?_, ?_, ?_, ?_, ?_, ?_⟩
  · intro b fn hext hlen
    obtain ⟨e, he⟩ := @parseBMP_short b fn hlen
    have hd : dispatchResult b fn = Except.error e := by rw [dispatch_bmp hext, he]
    rw [parseImageMetadata_of_error hd]
    exact errorRecord_isZeroError fn e
  · intro b fn hext hlen
    obtain ⟨e, he⟩ := @parsePNG_short b fn hlen
    have hd : dispatchResult b fn = Except.error e := by rw [dispatch_png hext, he]
    rw [parseImageMetadata_of_error hd]
    exact errorRecord_isZeroError fn e
  · intro b fn hext hlen
    obtain ⟨e, he⟩ := @parseJPEG_short b fn hlen
    have hd : dispatchResult b fn = Except.error e := by rw [dispatch_jpeg hext, he]
    rw [parseImageMetadata_of_error hd]
    exact errorRecord_isZeroError fn e
  · intro b fn hext hlen
    obtain ⟨e, he⟩ := @parseGIF_short b fn hlen
    have hd : dispatchResult b fn = Except.error e := by rw [dispatch_gif hext, he]
    rw [parseImageMetadata_of_error hd]
    exact errorRecord_isZeroError fn e
  · intro b fn hext hlen
    obtain ⟨e, he⟩ := @parseTIFF_short b fn hlen
    have hd : dispatchResult b fn = Except.error e := by rw [dispatch_tiff hext, he]
    rw [parseImageMetadata_of_error hd]
    exact errorRecord_isZeroError fn e
  · intro b fn hext hlen
    obtain ⟨e, he⟩ := @parsePCX_short b fn hlen
    have hd : dispatchResult b fn = Except.error e := by rw [dispatch_pcx hext, he]
    rw [parseImageMetadata_of_error hd]
    exact errorRecord_isZeroError fn e
  · intro b i h
    exact readUInt8_none h
  · intro b i h
    exact ⟨readUInt16LE_none h, readUInt16BE_none h⟩
  · intro b i h
    exact ⟨readUInt32LE_none h, readUInt32BE_none h, readInt32LE_none h⟩

/-- Witness for C2 at concrete short buffers, one per format, plus a
primitive read past the end of a concrete buffer. -/
theorem claim2_witness :
    isZeroError (parseImageMetadata [] "a.bmp") ∧
    isZeroError (parseImageMetadata [66] "a.png") ∧
    isZeroError (parseImageMetadata [255] "a.jpg") ∧
    isZeroError (parseImageMetadata [] "a.gif") ∧
    isZeroError (parseImageMetadata [73, 73] "a.tif") ∧
    isZeroError (parseImageMetadata [10] "a.pcx") ∧
    readUInt16LE [5] 0 = none :=
  ⟨claim2_short_buffer_error.1 [] "a.bmp" (by rfl) (by decide),
   claim2_short_buffer_error.2.1 [66] "a.png" (by rfl) (by decide),
   claim2_short_buffer_error.2.2.1 [255] "a.jpg" (Or.inl (by rfl)) (by decide),
   claim2_short_buffer_error.2.2.2.1 [] "a.gif" (by rfl) (by decide),
   claim2_short_buffer_error.2.2.2.2.1 [73, 73] "a.tif" (Or.inl (by rfl)) (by decide),
   claim2_short_buffer_error.2.2.2.2.2.1 [10] "a.pcx" (by rfl) (by decide),
   claim2_short_buffer_error.2.2.2.2.2.2.2.1 [5] 0 (by decide) |>.1⟩

/-! ### Format and error fields of dispatch outcomes -/

theorem dispatch_unsupported {b : Buf} {fn : String}
    (h : extOf fn ∉ (["bmp", "png", "jpg", "jpeg", "gif", "tif", "tiff", "pcx"] : List String)) :
    dispatchResult b fn = Except.error ("Unsupported format: " ++ extOf fn) := by
  simp only [List.mem_cons, List.not_mem_nil, or_false, not_or] at h
  obtain ⟨n1, n2, n3, n4, n5, n6, n7, n8⟩ := h
  unfold dispatchResult
  rw [if_neg n1, if_neg n2, if_neg (by tauto), if_neg n5,
    if_neg (by tauto), if_neg n8]

theorem dispatch_ok_props {b : Buf} {fn : String} {m : ImageMetadata}
    (h : dispatchResult b fn = Except.ok m) :
    m.error = none ∧ m.format ∈ (["BMP", "PNG", "JPEG", "GIF", "TIFF", "PCX"] : List String) := by
  by_cases h1 : extOf fn = "bmp"
  · rw [dispatch_bmp h1] at h
    obtain ⟨_, _, _, _, _, _, _, _, _, _, _, _, hm⟩ := parseBMP_ok h
    subst hm
    simp
  by_cases h2 : extOf fn = "png"
  · rw [dispatch_png h2] at h
    obtain ⟨_, _, _, _, _, _, _, _, _, _, _, _, hm⟩ := parsePNG_ok h
    subst hm
    simp
  by_cases h3 : extOf fn = "jpg" ∨ extOf fn = "jpeg"
  · rw [dispatch_jpeg h3] at h
    obtain ⟨_, _, _, _, hm⟩ := parseJPEG_ok h
    subst hm
    simp
  by_cases h4 : extOf fn = "gif"
  · rw [dispatch_gif h4] at h
    obtain ⟨_, _, _, _, _, _, hm⟩ := parseGIF_ok h
    subst hm
    simp
  by_cases h5 : extOf fn = "tif" ∨ extOf fn = "tiff"
  · rw [dispatch_tiff h5] at h
    obtain ⟨_, _, _, _, _, _, _, _, hm⟩ := parseTIFF_ok h
    subst hm
    simp
  by_cases h6 : extOf fn = "pcx"
  · rw [dispatch_pcx h6] at h
    obtain ⟨_, _, _, _, _, _, _, _, _, _, _, _, _, _, _, _, _, _, _, hm⟩ := parsePCX_ok h
    subst hm
    simp
  · have hmem : extOf fn ∉
        (["bmp", "png", "jpg", "jpeg", "gif", "tif", "tiff", "pcx"] : List String) := by
      simp only [List.mem_cons, List.not_mem_nil, or_false, not_or]
      tauto
    rw [dispatch_unsupported hmem] at h
    cases h

/-- A minimal 27-byte valid PNG buffer: signature plus IHDR fields with
width 2, height 3, bit depth 8, color type 6 (the spec's section-8 test
vector). -/
def pngDemoBuf : Buf :=
  [137, 80, 78, 71, 13, 10, 26, 10,
   0, 0, 0, 13,
   73, 72, 68, 82,
   0, 0, 0, 2,
   0, 0, 0, 3,
   8, 6, 0]

/-- The record `parsePNG` produces for `pngDemoBuf`. -/
def pngDemoRecord : ImageMetadata :=
  { filename := "a.png", width := 2, height := 3,
    resolutionX := JSNum.num 72, resolutionY := JSNum.num 72,
    colorDepth := JSNum.num 32, compression := "Deflate",
    format := "PNG", error := none }

/-! ### Claim C5 -/

/-- C5 counterexample: the claim says `format` is one of the six tags except
when dispatch fails because the extension is unrecognized.  But an empty
buffer with the recognized extension `jpg` fails inside the decoder, and the
error record carries `format = "JPG"`, which is not one of the six tags. -/
theorem claim5_counterexample :
    (parseImageMetadata [] "a.jpg").format = "JPG" ∧
    "JPG" ∉ (["BMP", "PNG", "JPEG", "GIF", "TIFF", "PCX"] : List String) ∧
    extOf "a.jpg" ∈ (["bmp", "png", "jpg", "jpeg", "gif", "tif", "tiff", "pcx"] : List String) ∧
    (parseImageMetadata [] "a.jpg").error.isSome = true := by
  decide

/-- C5 (amended): the `format` field is one of the six tags `BMP`, `PNG`,
`JPEG`, `GIF`, `TIFF`, `PCX` whenever decoding succeeds (`error` absent); on
every failure — decode error on a recognized extension as well as an
unrecognized extension — it is the raw uppercased extension; no other value
is ever produced. -/
theorem claim5_amended_format_values :
    ∀ (b : Buf) (fn : String),
      ((parseImageMetadata b fn).error = none →
        (parseImageMetadata b fn).format ∈
          (["BMP", "PNG", "JPEG", "GIF", "TIFF", "PCX"] : List String)) ∧
      ((parseImageMetadata b fn).error.isSome = true →
        (parseImageMetadata b fn).format = toUpperStr (extOf fn)) := by
  intro b fn
  cases hd : dispatchResult b fn with
  | ok m =>
    rw [parseImageMetadata_of_ok hd]
    obtain ⟨hne, hfmt⟩ := dispatch_ok_props hd
    refine ⟨fun _ => hfmt, fun hsome => ?_⟩
    rw [hne] at hsome
    simp at hsome
  | error e =>
    rw [parseImageMetadata_of_error hd]
    refine ⟨fun hnone => ?_, fun _ => rfl⟩
    simp [errorRecord] at hnone

/-- Witness for C5 (amended) at concrete inputs: a decoder failure with a
recognized extension yields the uppercased extension, and a successful PNG
decode yields a tag from the six-element set. -/
theorem claim5_witness :
    (parseImageMetadata [] "a.jpg").format = "JPG" ∧
    (parseImageMetadata pngDemoBuf "ok.png").format ∈
      (["BMP", "PNG", "JPEG", "GIF", "TIFF", "PCX"] : List String) := by
  constructor
  · have h := (claim5_amended_format_values [] "a.jpg").2 (by decide)
    rw [h]
    decide
  · exact (claim5_amended_format_values pngDemoBuf "ok.png").1 (by decide)

/-! ### Claim C4 -/

/-- A 46-byte BMP whose stored signed width is `-1` and stored signed height
is `-3`. -/
def negWidthBmpBuf : Buf :=
  [66, 77, 0, 0, 0, 0, 0, 0, 0, 0, 0, 0, 0, 0,
   40, 0, 0, 0,
   255, 255, 255, 255,
   253, 255, 255, 255,
   0, 0, 24, 0,
   0, 0, 0, 0,
   0, 0, 0, 0,
   0, 0, 0, 0,
   0, 0, 0, 0]

/-- The record `parseBMP` produces for `negWidthBmpBuf`. -/
def negBmpRecord : ImageMetadata :=
  { filename := "neg.bmp", width := -1, height := 3,
    resolutionX := JSNum.num 72, resolutionY := JSNum.num 72,
    colorDepth := JSNum.num 24, compression := "None (BI_RGB)",
    format := "BMP", error := none }

/-- A 66-byte PCX whose bounding box is inverted: `xMin = 5`, `xMax = 0`
(and `yMin = 0`, `yMax = 49`). -/
def negPcxBuf : Buf :=
  [10, 5, 1, 8,
   5, 0, 0, 0, 0, 0, 49, 0,
   150, 0, 75, 0] ++ List.replicate 49 0 ++ [3]

/-- The record `parsePCX` produces for `negPcxBuf`. -/
def negPcxRecord : ImageMetadata :=
  { filename := "neg.pcx", width := -4, height := 50,
    resolutionX := JSNum.num 150, resolutionY := JSNum.num 75,
    colorDepth := JSNum.num 24, compression := "RLE",
    format := "PCX", error := none }

/-- C4 counterexample: the claim says width and height are non-negative in
every record, and that for BMP a negative stored value is reported as its
absolute value.  But the BMP decoder only takes the absolute value of the
height — a stored width of `-1` is reported as `-1` in a successful (no
`error`) record — and the PCX decoder's `width = xMax - xMin + 1` is `-4`
for the inverted bounding box `xMin = 5`, `xMax = 0`, also without error. -/
theorem claim4_counterexample :
    (parseImageMetadata negWidthBmpBuf "neg.bmp").width = -1 ∧
    (parseImageMetadata negWidthBmpBuf "neg.bmp").error = none ∧
    readInt32LE negWidthBmpBuf 18 = some (-1) ∧
    (parseImageMetadata negWidthBmpBuf "neg.bmp").height = 3 ∧
    (parseImageMetadata negPcxBuf "neg.pcx").width = -4 ∧
    (parseImageMetadata negPcxBuf "neg.pcx").error = none ∧
    readUInt16LE negPcxBuf 4 = some 5 ∧
    readUInt16LE negPcxBuf 8 = some 0 := by
  decide

/-- C4 (amended): records returned by the PNG, JPEG, GIF and TIFF decoders,
and the dispatcher's error records, have non-negative width and height; the
BMP decoder reports height as the absolute value of the stored signed 32-bit
value (hence non-negative), but reports width as the stored signed value
itself, which is negative whenever the stored width is negative; and the PCX
decoder reports `width = xMax - xMin + 1` and `height = yMax - yMin + 1`
computed from the stored bounding box, which are negative whenever the box
is inverted far enough (`xMax + 1 < xMin`, resp. `yMax + 1 < yMin`). -/
theorem claim4_amended_nonneg :
    (∀ (b : Buf) (fn : String) (m : ImageMetadata), parsePNG b fn = Except.ok m →
      0 ≤ m.width ∧ 0 ≤ m.height) ∧
    (∀ (b : Buf) (fn : String) (m : ImageMetadata), parseJPEG b fn = Except.ok m →
      0 ≤ m.width ∧ 0 ≤ m.height) ∧
    (∀ (b : Buf) (fn : String) (m : ImageMetadata), parseGIF b fn = Except.ok m →
      0 ≤ m.width ∧ 0 ≤ m.height) ∧
    (∀ (b : Buf) (fn : String) (m : ImageMetadata), parseTIFF b fn = Except.ok m →
      0 ≤ m.width ∧ 0 ≤ m.height) ∧
    (∀ (b : Buf) (fn : String) (m : ImageMetadata), parseBMP b fn = Except.ok m →
      0 ≤ m.height ∧
      (∀ v : Int, readInt32LE b 22 = some v → m.height = (v.natAbs : Int)) ∧
      (∀ v : Int, readInt32LE b 18 = some v → m.width = v)) ∧
    (∀ (b : Buf) (fn : String) (m : ImageMetadata), parsePCX b fn = Except.ok m →
      (∀ x0 x1 : Nat, readUInt16LE b 4 = some x0 → readUInt16LE b 8 = some x1 →
        m.width = (x1 : Int) - (x0 : Int) + 1) ∧
      (∀ y0 y1 : Nat, readUInt16LE b 6 = some y0 → readUInt16LE b 10 = some y1 →
        m.height = (y1 : Int) - (y0 : Int) + 1)) ∧
    (∀ (b : Buf) (fn : String), (parseImageMetadata b fn).error.isSome = true →
      (parseImageMetadata b fn).width = 0 ∧ (parseImageMetadata b fn).height = 0) := by
  refine ⟨?_, ?_, ?_, ?_, ?_, ?_, ?_⟩
  · intro b fn m h
    obtain ⟨w, ht, _, _, _, _, _, _, _, _, _, _, hm⟩ := parsePNG_ok h
    subst hm
    constructor <;> simp
  · intro b fn m h
    obtain ⟨s, _, _, _, hm⟩ := parseJPEG_ok h
    subst hm
    constructor <;> simp
  · intro b fn m h
    obtain ⟨w, ht, _, _, _, _, hm⟩ := parseGIF_ok h
    subst hm
    constructor <;> simp
  · intro b fn m h
    obtain ⟨_, _, s, _, _, _, _, _, hm⟩ := parseTIFF_ok h
    subst hm
    constructor <;> simp
  · intro b fn m h
    obtain ⟨dib, w, ht, bpp, cm, res, _, hw, hht, _, _, _, hm⟩ := parseBMP_ok h
    subst hm
    refine ⟨by simp, ?_, ?_⟩
    · intro v hv
      rw [hht] at hv
      cases hv
      rfl
    · intro v hv
      rw [hw] at hv
      cases hv
      rfl
  · intro b fn m h
    obtain ⟨enc, bpp, xMin, yMin, xMax, yMax, hD, vD, nP,
      _, _, _, hx0, hy0, hx1, hy1, _, _, _, hm⟩ := parsePCX_ok h
    subst hm
    constructor
    · intro x0 x1 h0 h1
      rw [hx0] at h0
      rw [hx1] at h1
      cases h0
      cases h1
      rfl
    · intro y0 y1 h0 h1
      rw [hy0] at h0
      rw [hy1] at h1
      cases h0
      cases h1
      rfl
  · intro b fn hsome
    cases hd : dispatchResult b fn with
    | ok m =>
      rw [parseImageMetadata_of_ok hd] at hsome
      rw [(dispatch_ok_props hd).1] at hsome
      simp at hsome
    | error e =>
      rw [parseImageMetadata_of_error hd]
      exact ⟨rfl, rfl⟩

/-- Witness for C4 (amended) at concrete inputs: the demo PNG gives
non-negative width, the negative-width BMP has height `|-3| = 3` and width
exactly the stored `-1`, and the inverted-box PCX has width `0 - 5 + 1`. -/
theorem claim4_witness :
    (0 : Int) ≤ pngDemoRecord.width ∧
    negBmpRecord.height = ((-3 : Int).natAbs : Int) ∧
    negBmpRecord.width = -1 ∧
    negPcxRecord.width = ((0 : Nat) : Int) - ((5 : Nat) : Int) + 1 := by
  refine ⟨(claim4_amended_nonneg.1 pngDemoBuf "a.png" pngDemoRecord (by decide)).1,
    ?_, ?_, ?_⟩
  · obtain ⟨_, habs, _⟩ :=
      claim4_amended_nonneg.2.2.2.2.1 negWidthBmpBuf "neg.bmp" negBmpRecord (by decide)
    exact habs (-3) (by decide)
  · obtain ⟨_, _, hw⟩ :=
      claim4_amended_nonneg.2.2.2.2.1 negWidthBmpBuf "neg.bmp" negBmpRecord (by decide)
    exact hw (-1) (by decide)
  · obtain ⟨hwbox, _⟩ :=
      claim4_amended_nonneg.2.2.2.2.2.1 negPcxBuf "neg.pcx" negPcxRecord (by decide)
    exact hwbox 5 0 (by decide) (by decide)

/-! ### Claim C7 -/

/-- C7: for every valid (successfully decoded) PNG buffer, the returned
color depth equals the IHDR bit depth (byte 24) scaled by the channel count
implied by the color type (byte 25): times 3 for color type 2, times 2 for
color type 4, times 4 for color type 6, and unscaled otherwise. -/
theorem claim7_png_color_depth :
    ∀ (b : Buf) (fn : String) (m : ImageMetadata) (bd ct : Nat),
      parsePNG b fn = Except.ok m →
      readUInt8 b 24 = some bd → readUInt8 b 25 = some ct →
      m.colorDepth = JSNum.num
        ((if ct = 2 then bd * 3
          else if ct = 4 then bd * 2
          else if ct = 6 then bd * 4
          else bd : Nat) : Int) := by
  intro b fn m bd ct h h24 h25
  obtain ⟨w, ht, bd', ct', cm, res, _, _, hbd, hct, _, _, hm⟩ := parsePNG_ok h
  rw [h24] at hbd
  rw [h25] at hct
  cases hbd
  cases hct
  subst hm
  rfl

/-- Witness for C7: the demo PNG has bit depth 8 and color type 6, and its
record carries color depth 32. -/
theorem claim7_witness : pngDemoRecord.colorDepth = JSNum.num 32 := by
  have h := claim7_png_color_depth pngDemoBuf "a.png" pngDemoRecord 8 6
    (by decide) (by decide) (by decide)
  rw [h]
  decide

/-! ### Claim C9: the scanning loops are insensitive to extra fuel -/

theorem bind_congr_right {α β : Type} (x : Except String α) {f g : α → Except String β}
    (h : ∀ a, f a = g a) : x >>= f = x >>= g := by
  cases x with
  | error e => rfl
  | ok a => exact h a

theorem pngScan_fuel_irrelevant (b : Buf) :
    ∀ (f1 f2 o : Nat) (r : Nat × Nat), b.length - o ≤ f1 → b.length - o ≤ f2 →
      pngScan b f1 o r = pngScan b f2 o r := by
  intro f1
  induction f1 with
  | zero =>
    intro f2 o r h1 h2
    have hg : ¬ o < b.length - 12 := by omega
    cases f2 with
    | zero => rfl
    | succ g => simp only [pngScan, if_neg hg]
  | succ f ih =>
    intro f2 o r h1 h2
    by_cases hg : o < b.length - 12
    · cases f2 with
      | zero => omega
      | succ g =>
        simp only [pngScan, if_pos hg]
        cases hc : readUInt32BE b o with
        | none => simp only [hc, orThrow_nonec, error_bind]
        | some cl =>
          simp only [hc, orThrow_some, ok_bind]
          by_cases ht : asciiSub b (o + 4) (o + 8) = [112, 72, 89, 115]
          · simp only [if_pos ht]
          · simp only [if_neg ht]
            exact ih g (o + cl + 12) r (by omega) (by omega)
    · cases f2 with
      | zero => simp only [pngScan, if_neg hg]
      | succ g => simp only [pngScan, if_neg hg]

theorem jpegScan_fuel_irrelevant (b : Buf) :
    ∀ (f1 f2 o : Nat) (s : JpegState), b.length - o ≤ f1 → b.length - o ≤ f2 →
      jpegScan b f1 o s = jpegScan b f2 o s := by
  intro f1
  induction f1 with
  | zero =>
    intro f2 o s h1 h2
    have hg : ¬ o < b.length := by omega
    cases f2 with
    | zero => rfl
    | succ g => simp only [jpegScan, if_neg hg]
  | succ f ih =>
    intro f2 o s h1 h2
    by_cases hg : o < b.length
    · cases f2 with
      | zero => omega
      | succ g =>
        simp only [jpegScan, if_pos hg]
        by_cases hb : byteAt b o ≠ some 255
        · simp only [if_pos hb]
        · simp only [if_neg hb]
          cases hc : readUInt16BE b (o + 2) with
          | none => simp only [hc, orThrow_nonec, error_bind]
          | some sl =>
            simp only [hc, orThrow_some, ok_bind]
            cases hseg : jpegSegment b o s with
            | error e => simp only [hseg, error_bind]
            | ok s' =>
              simp only [hseg, ok_bind]
              exact ih g (o + sl + 2) s' (by omega) (by omega)
    · cases f2 with
      | zero => simp only [jpegScan, if_neg hg]
      | succ g => simp only [jpegScan, if_neg hg]

/-- C9: every decoder call terminates on every finite buffer with a bounded
number of iterations, including on malformed buffers whose stated chunk or
segment length is zero.  The PNG chunk scan and the JPEG marker walk advance
the offset by at least 12 and 2 bytes per step respectively, so any fuel of
at least `b.length - o` steps yields the same result (in particular the loop
state reached with fuel `b.length`, which the decoders use, is final and no
input causes an unbounded scan); the TIFF IFD loop runs exactly the entry
count read from a 16-bit field, which is below 65536 for byte-valued
buffers. -/
theorem claim9_loops_terminate :
    (∀ (b : Buf) (f1 f2 o : Nat) (r : Nat × Nat),
      b.length - o ≤ f1 → b.length - o ≤ f2 →
      pngScan b f1 o r = pngScan b f2 o r) ∧
    (∀ (b : Buf) (f1 f2 o : Nat) (s : JpegState),
      b.length - o ≤ f1 → b.length - o ≤ f2 →
      jpegScan b f1 o s = jpegScan b f2 o s) ∧
    (∀ (le : Bool) (b : Buf) (i n : Nat), (∀ x ∈ b, x < 256) →
      readU16 le b i = some n → n < 65536) := by
  refine ⟨pngScan_fuel_irrelevant, jpegScan_fuel_irrelevant, ?_⟩
  intro le b i n hb h
  have hval : ∀ (x0 x1 : Nat), b.get? i = some x0 → b.get? (i + 1) = some x1 →
      (n = x0 + 256 * x1 ∨ n = 256 * x0 + x1) → n < 65536 := by
    intro x0 x1 h0 h1 hn
    have b0 : x0 < 256 := hb x0 (List.get?_mem h0)
    have b1 : x1 < 256 := hb x1 (List.get?_mem h1)
    omega
  unfold readU16 at h
  cases le with
  | true =>
    rw [if_pos rfl] at h
    unfold readUInt16LE at h
    rcases h0 : b.get? i with _ | x0 <;> rw [h0] at h
    · simp at h
    · rcases h1 : b.get? (i + 1) with _ | x1 <;> rw [h1] at h
      · simp at h
      · cases h
        exact hval x0 x1 h0 h1 (Or.inl rfl)
  | false =>
    rw [if_neg (by simp)] at h
    unfold readUInt16BE at h
    rcases h0 : b.get? i with _ | x0 <;> rw [h0] at h
    · simp at h
    · rcases h1 : b.get? (i + 1) with _ | x1 <;> rw [h1] at h
      · simp at h
      · cases h
        exact hval x0 x1 h0 h1 (Or.inr rfl)

/-- Witness for C9 at concrete inputs: extra fuel does not change the
scans, and a concrete 16-bit entry count is below 65536. -/
theorem claim9_witness :
    pngScan [0, 0] 2 0 (72, 72) = pngScan [0, 0] 50 0 (72, 72) ∧
    jpegScan [255, 216] 2 2 ⟨0, 0, JSNum.num 24, 72, 72⟩ =
      jpegScan [255, 216] 99 2 ⟨0, 0, JSNum.num 24, 72, 72⟩ ∧
    (263 : Nat) < 65536 :=
  ⟨claim9_loops_terminate.1 [0, 0] 2 50 0 (72, 72) (by decide) (by decide),
   claim9_loops_terminate.2.1 [255, 216] 2 99 2 ⟨0, 0, JSNum.num 24, 72, 72⟩
     (by decide) (by decide),
   claim9_loops_terminate.2.2 true [7, 1] 0 263 (by decide) (by decide)⟩

/-! ### Claim C10: extension derivation for dot-free filenames -/

theorem charOfNatAux_toNat (n : Nat) (h : n.isValidChar) :
    (Char.ofNatAux n h).toNat = n := by
  unfold Char.ofNatAux Char.toNat
  show (UInt32.toNat ⟨BitVec.ofNatLt n _⟩) = n
  simp [UInt32.toNat]

theorem toLower_eq_dot {c : Char} (h : c.toLower = '.') : c = '.' := by
  unfold Char.toLower at h
  by_cases hc : c.toNat ≥ 65 ∧ c.toNat ≤ 90
  · rw [if_pos hc] at h
    exfalso
    have hval : (c.toNat + 32).isValidChar := by
      unfold Nat.isValidChar
      left
      omega
    have hv : (Char.ofNat (c.toNat + 32)).toNat = c.toNat + 32 := by
      unfold Char.ofNat
      rw [dif_pos hval]
      exact charOfNatAux_toNat _ hval
    rw [h] at hv
    have hdot : ('.' : Char).toNat = 46 := rfl
    omega
  · rwa [if_neg hc] at h

theorem splitDot_no_dot {cs : List Char} (h : '.' ∉ cs) : splitDot cs = [cs] := by
  induction cs with
  | nil => rfl
  | cons c rest ih =>
    have hne : ¬ c = '.' := fun hc => h (by rw [hc]; exact List.mem_cons_self '.' rest)
    have hr : splitDot rest = [rest] := ih (fun hm => h (List.mem_cons_of_mem c hm))
    unfold splitDot
    rw [hr]
    simp [hne]

/-- C10: a filename with no dot uses the entire lowercased name as the
extension — so a file named exactly "png" is dispatched to the PNG decoder
rather than rejected — and only names whose derived extension lies outside
the recognized eight-element set produce the unsupported-format error. -/
theorem claim10_no_dot_dispatch :
    (∀ fn : String, '.' ∉ fn.data → extOf fn = String.mk (fn.data.map Char.toLower)) ∧
    (parseImageMetadata pngDemoBuf "png").format = "PNG" ∧
    (parseImageMetadata pngDemoBuf "png").error = none ∧
    (∀ (b : Buf) (fn : String),
      extOf fn ∈ (["bmp", "png", "jpg", "jpeg", "gif", "tif", "tiff", "pcx"] : List String) →
      dispatchResult b fn = parseBMP b fn ∨ dispatchResult b fn = parsePNG b fn ∨
      dispatchResult b fn = parseJPEG b fn ∨ dispatchResult b fn = parseGIF b fn ∨
      dispatchResult b fn = parseTIFF b fn ∨ dispatchResult b fn = parsePCX b fn) ∧
    (∀ (b : Buf) (fn : String),
      extOf fn ∉ (["bmp", "png", "jpg", "jpeg", "gif", "tif", "tiff", "pcx"] : List String) →
      dispatchResult b fn = Except.error ("Unsupported format: " ++ extOf fn)) := by
  refine ⟨?_, by decide, by decide, ?_, ?_⟩
  · intro fn h
    have hmap : '.' ∉ fn.data.map Char.toLower := by
      intro hm
      obtain ⟨c, hc, hlow⟩ := List.mem_map.mp hm
      exact h (toLower_eq_dot hlow ▸ hc)
    unfold extOf
    rw [splitDot_no_dot hmap]
    rfl
  · intro b fn h
    simp only [List.mem_cons, List.not_mem_nil, or_false] at h
    rcases h with h | h | h | h | h | h | h | h
    · exact Or.inl (dispatch_bmp h)
    · exact Or.inr (Or.inl (dispatch_png h))
    · exact Or.inr (Or.inr (Or.inl (dispatch_jpeg (Or.inl h))))
    · exact Or.inr (Or.inr (Or.inl (dispatch_jpeg (Or.inr h))))
    · exact Or.inr (Or.inr (Or.inr (Or.inl (dispatch_gif h))))
    · exact Or.inr (Or.inr (Or.inr (Or.inr (Or.inl (dispatch_tiff (Or.inl h))))))
    · exact Or.inr (Or.inr (Or.inr (Or.inr (Or.inl (dispatch_tiff (Or.inr h))))))
    · exact Or.inr (Or.inr (Or.inr (Or.inr (Or.inr (dispatch_pcx h)))))
  · intro b fn h
    exact dispatch_unsupported h

/-- Witness for C10 at concrete inputs: "PNG" with no dot lowercases to the
extension "png"; the extension "png" is dispatched to a decoder; and a name
with the unrecognized extension "webp" produces the unsupported-format
error. -/
theorem claim10_witness :
    extOf "PNG" = "png" ∧
    (dispatchResult [] "png" = parseBMP [] "png" ∨
     dispatchResult [] "png" = parsePNG [] "png" ∨
     dispatchResult [] "png" = parseJPEG [] "png" ∨
     dispatchResult [] "png" = parseGIF [] "png" ∨
     dispatchResult [] "png" = parseTIFF [] "png" ∨
     dispatchResult [] "png" = parsePCX [] "png") ∧
    dispatchResult [] "a.webp" = Except.error ("Unsupported format: " ++ extOf "a.webp") := by
  refine ⟨?_, ?_, ?_⟩
  · have h := claim10_no_dot_dispatch.1 "PNG" (by decide)
    rw [h]
    decide
  · exact claim10_no_dot_dispatch.2.2.2.1 [] "png" (by decide)
  · exact claim10_no_dot_dispatch.2.2.2.2 [] "a.webp" (by decide)

/-! ### Claim C6: the no-SOF fallback -/

/-- Whether the buffer contains, at any position, a `0xFF` byte immediately
followed by a Start-Of-Frame marker byte ("contains a SOF marker"). -/
def hasSOFpair (b : Buf) : Bool :=
  (List.range b.length).any fun i =>
    match byteAt b i, byteAt b (i + 1) with
    | some x, some m => x == 255 && isSOF m
    | _, _ => false

theorem no_sof_of_hasSOFpair_false {b : Buf} (h : hasSOFpair b = false) :
    ∀ o m, byteAt b o = some 255 → byteAt b (o + 1) = some m → isSOF m = false := by
  intro o m h1 h2
  by_contra hm
  have hm' : isSOF m = true := by
    cases hsof : isSOF m
    · exact absurd hsof hm
    · rfl
  have ho : o < b.length := byteAt_some_lt h1
  have htrue : hasSOFpair b = true := by
    unfold hasSOFpair
    rw [List.any_eq_true]
    refine ⟨o, List.mem_range.mpr ho, ?_⟩
    rw [h1, h2]
    simp [hm']
  rw [h] at htrue
  cases htrue

theorem jpegSegment_no_sof {b : Buf} {o : Nat} {s s' : JpegState}
    (hsof : ∀ m, byteAt b (o + 1) = some m → isSOF m = false)
    (h : jpegSegment b o s = Except.ok s') :
    s'.width = s.width ∧ s'.height = s.height ∧ s'.colorDepth = s.colorDepth := by
  unfold jpegSegment at h
  cases hm : byteAt b (o + 1) with
  | none =>
    rw [hm] at h
    cases h
    exact ⟨rfl, rfl, rfl⟩
  | some m =>
    rw [hm] at h
    simp only [hsof m hm, Bool.false_eq_true, if_false] at h
    by_cases h224 : m = 224
    · rw [if_pos h224] at h
      by_cases hid : asciiSub b (o + 4) (o + 9) = [74, 70, 73, 70, 0]
      · rw [if_pos hid] at h
        obtain ⟨xD, hx, h⟩ := bindOk h
        obtain ⟨yD, hy, h⟩ := bindOk h
        by_cases hu1 : byteAt b (o + 11) = some 1
        · rw [if_pos hu1] at h
          cases h
          exact ⟨rfl, rfl, rfl⟩
        · rw [if_neg hu1] at h
          by_cases hu2 : byteAt b (o + 11) = some 2
          · rw [if_pos hu2] at h
            cases h
            exact ⟨rfl, rfl, rfl⟩
          · rw [if_neg hu2] at h
            cases h
            exact ⟨rfl, rfl, rfl⟩
      · rw [if_neg hid] at h
        cases h
        exact ⟨rfl, rfl, rfl⟩
    · rw [if_neg h224] at h
      cases h
      exact ⟨rfl, rfl, rfl⟩

theorem jpegScan_no_sof {b : Buf}
    (hno : ∀ o m, byteAt b o = some 255 → byteAt b (o + 1) = some m → isSOF m = false) :
    ∀ (fuel o : Nat) (s s' : JpegState), jpegScan b fuel o s = Except.ok s' →
      s'.width = s.width ∧ s'.height = s.height ∧ s'.colorDepth = s.colorDepth := by
  intro fuel
  induction fuel with
  | zero =>
    intro o s s' h
    cases h
    exact ⟨rfl, rfl, rfl⟩
  | succ f ih =>
    intro o s s' h
    simp only [jpegScan] at h
    by_cases hg : o < b.length
    · rw [if_pos hg] at h
      by_cases hb : byteAt b o ≠ some 255
      · rw [if_pos hb] at h
        cases h
        exact ⟨rfl, rfl, rfl⟩
      · rw [if_neg hb] at h
        push_neg at hb
        obtain ⟨sl, hsl, h⟩ := bindOk h
        obtain ⟨s1, hseg, h⟩ := bindOk h
        have hstep := jpegSegment_no_sof (fun m hm => hno o m hb hm) hseg
        have hrest := ih (o + sl + 2) s1 s' h
        exact ⟨hrest.1.trans hstep.1, hrest.2.1.trans hstep.2.1,
          hrest.2.2.trans hstep.2.2⟩
    · rw [if_neg hg] at h
      cases h
      exact ⟨rfl, rfl, rfl⟩

/-- C6 counterexample: the buffer `FF D8 FF E1` begins with the SOI bytes and
contains no SOF marker, yet the decoder does not return the 24-bit fallback
record: the segment-length read for the `E1` marker is out of range, so the
decode throws and the dispatcher returns a zero-valued error record. -/
theorem claim6_counterexample :
    byteAt [255, 216, 255, 225] 0 = some 255 ∧
    byteAt [255, 216, 255, 225] 1 = some 216 ∧
    hasSOFpair [255, 216, 255, 225] = false ∧
    (parseImageMetadata [255, 216, 255, 225] "x.jpg").error.isSome = true ∧
    (parseImageMetadata [255, 216, 255, 225] "x.jpg").colorDepth = JSNum.num 0 := by
  decide

/-- C6 (amended): for every buffer that begins with the SOI bytes `FF D8`
and contains no SOF marker pair, IF the marker walk completes without an
out-of-range read (the decoder returns a record rather than throwing), THEN
that record has `colorDepth = 24`, `width = height = 0` and no `error` field;
when the walk does hit an out-of-range read the decode throws instead and
the dispatcher produces an error record. -/
theorem claim6_amended_no_sof_fallback :
    ∀ (b : Buf) (fn : String) (m : ImageMetadata),
      hasSOFpair b = false → parseJPEG b fn = Except.ok m →
      m.colorDepth = JSNum.num 24 ∧ m.width = 0 ∧ m.height = 0 ∧ m.error = none := by
  intro b fn m hno h
  obtain ⟨s, h0, h1, hscan, hm⟩ := parseJPEG_ok h
  have hs := jpegScan_no_sof (no_sof_of_hasSOFpair_false hno) b.length 2 _ s hscan
  subst hm
  refine ⟨?_, ?_, ?_, rfl⟩
  · exact hs.2.2
  · show (s.width : Int) = 0
    rw [hs.1]
    rfl
  · show (s.height : Int) = 0
    rw [hs.2.1]
    rfl

/-- Witness for C6 (amended): the two-byte buffer `FF D8` decodes to the
fallback record with color depth 24 and no error. -/
theorem claim6_witness :
    ∃ m, parseJPEG [255, 216] "w.jpg" = Except.ok m ∧
      m.colorDepth = JSNum.num 24 ∧ m.width = 0 ∧ m.height = 0 ∧ m.error = none := by
  refine ⟨{ filename := "w.jpg", width := 0, height := 0,
            resolutionX := JSNum.num 72, resolutionY := JSNum.num 72,
            colorDepth := JSNum.num 24, compression := "JPEG",
            format := "JPEG", error := none }, by decide, ?_⟩
  exact claim6_amended_no_sof_fallback [255, 216] "w.jpg" _ (by decide) (by decide)

/-! ### Claim C3: which SOF segment wins -/

/-- A buffer made of the SOI bytes followed by two minimal SOF0 marker
segments (each with the 2-byte length field 8: precision byte, 16-bit
height, 16-bit width, component-count byte). -/
def twoSofJpeg (p1 hh1 hl1 wh1 wl1 c1 p2 hh2 hl2 wh2 wl2 c2 : Nat) : Buf :=
  [255, 216,
   255, 192, 0, 8, p1, hh1, hl1, wh1, wl1, c1,
   255, 192, 0, 8, p2, hh2, hl2, wh2, wl2, c2]

/-- A concrete instance of `twoSofJpeg`: the first SOF carries height 1,
width 2, precision 8, 1 component (color depth 8); the second carries
height 4, width 5, precision 8, 3 components (color depth 24). -/
def cexTwoSofBuf : Buf := twoSofJpeg 8 0 1 0 2 1 8 0 4 0 5 3

/-- C3 counterexample: the claim says the first SOF segment encountered
wins.  On a buffer with two SOF segments — the first with width 2, height 1,
color depth 8, the second with width 5, height 4, color depth 24 — the
decoder reports the second segment's values, not the first's. -/
theorem claim3_counterexample :
    readUInt16BE cexTwoSofBuf 7 = some 1 ∧
    readUInt16BE cexTwoSofBuf 9 = some 2 ∧
    readUInt16BE cexTwoSofBuf 17 = some 4 ∧
    readUInt16BE cexTwoSofBuf 19 = some 5 ∧
    (parseImageMetadata cexTwoSofBuf "x.jpg").error = none ∧
    (parseImageMetadata cexTwoSofBuf "x.jpg").width = 5 ∧
    (parseImageMetadata cexTwoSofBuf "x.jpg").height = 4 ∧
    (parseImageMetadata cexTwoSofBuf "x.jpg").colorDepth = JSNum.num 24 := by
  decide

/-- The `(width, height, colorDepth)` components of a walk state. -/
def stateTriple (s : JpegState) : Nat × Nat × JSNum := (s.width, s.height, s.colorDepth)

/-- Whether the marker byte of the segment starting at offset `o` is a SOF
marker. -/
def isSOFmarkerAt (b : Buf) (o : Nat) : Bool :=
  match byteAt b (o + 1) with
  | some m => isSOF m
  | none => false

/-- `jpegScan` instrumented with a ghost trace that collects, in encounter
order, the `(width, height, colorDepth)` values recorded by each SOF segment
the walk processes.  Its state component coincides with `jpegScan` (first
conjunct of `claim3_amended_last_sof_wins`). -/
def jpegScanT (b : Buf) : Nat → Nat → JpegState → List (Nat × Nat × JSNum) →
    Except String (JpegState × List (Nat × Nat × JSNum))
  | 0, _, s, t => Except.ok (s, t)
  | fuel + 1, o, s, t =>
    if o < b.length then
      if byteAt b o ≠ some 255 then Except.ok (s, t)
      else do
        let segmentLength ← orThrow (readUInt16BE b (o + 2)) rangeMsg
        let s' ← jpegSegment b o s
        jpegScanT b fuel (o + segmentLength + 2) s'
          (if isSOFmarkerAt b o then t ++ [stateTriple s'] else t)
    else Except.ok (s, t)

theorem getLastD_cons {α : Type} : ∀ (l : List α) (a d : α),
    ((a :: l).getLast?).getD d = (l.getLast?).getD a := by
  intro l
  induction l with
  | nil =>
    intro a d
    rfl
  | cons b l' ih =>
    intro a d
    rw [List.getLast?_cons_cons]
    rw [ih b d, ih b a]

theorem jpegScanT_fst (b : Buf) :
    ∀ (fuel o : Nat) (s : JpegState) (t : List (Nat × Nat × JSNum)),
      (jpegScanT b fuel o s t).map Prod.fst = jpegScan b fuel o s := by
  intro fuel
  induction fuel with
  | zero =>
    intro o s t
    rfl
  | succ f ih =>
    intro o s t
    by_cases hg : o < b.length
    · simp only [jpegScanT, jpegScan, if_pos hg]
      by_cases hb : byteAt b o ≠ some 255
      · rw [if_pos hb, if_pos hb]
        rfl
      · rw [if_neg hb, if_neg hb]
        cases hc : readUInt16BE b (o + 2) with
        | none =>
          simp only [hc, orThrow_nonec, error_bind]
          rfl
        | some sl =>
          simp only [hc, orThrow_some, ok_bind]
          cases hseg : jpegSegment b o s with
          | error e =>
            simp only [hseg, error_bind]
            rfl
          | ok s1 =>
            simp only [hseg, ok_bind]
            exact ih (o + sl + 2) s1 _
    · simp only [jpegScanT, jpegScan, if_neg hg]
      rfl

theorem jpegScanT_trace (b : Buf) :
    ∀ (fuel o : Nat) (s : JpegState) (t : List (Nat × Nat × JSNum))
      (s' : JpegState) (t' : List (Nat × Nat × JSNum)),
      jpegScanT b fuel o s t = Except.ok (s', t') →
      ∃ pre, t' = t ++ pre ∧ stateTriple s' = (pre.getLast?).getD (stateTriple s) := by
  intro fuel
  induction fuel with
  | zero =>
    intro o s t s' t' h
    cases h
    exact ⟨[], by simp, rfl⟩
  | succ f ih =>
    intro o s t s' t' h
    simp only [jpegScanT] at h
    by_cases hg : o < b.length
    · rw [if_pos hg] at h
      by_cases hb : byteAt b o ≠ some 255
      · rw [if_pos hb] at h
        cases h
        exact ⟨[], by simp, rfl⟩
      · rw [if_neg hb] at h
        obtain ⟨sl, hsl, h⟩ := bindOk h
        obtain ⟨s1, hseg, h⟩ := bindOk h
        by_cases hsof : isSOFmarkerAt b o = true
        · rw [if_pos hsof] at h
          obtain ⟨pre1, hpre1, htr⟩ := ih _ s1 _ s' t' h
          refine ⟨stateTriple s1 :: pre1, ?_, ?_⟩
          · rw [hpre1]
            simp
          · rw [htr, getLastD_cons]
        · rw [if_neg hsof] at h
          obtain ⟨pre, hpre, htr⟩ := ih _ s1 _ s' t' h
          have hns : ∀ m, byteAt b (o + 1) = some m → isSOF m = false := by
            intro m hm
            by_contra hiso
            apply hsof
            unfold isSOFmarkerAt
            rw [hm]
            show isSOF m = true
            cases hiso2 : isSOF m
            · exact absurd hiso2 hiso
            · rfl
          have hkeep : stateTriple s1 = stateTriple s := by
            have h3 := jpegSegment_no_sof hns hseg
            unfold stateTriple
            rw [h3.1, h3.2.1, h3.2.2]
          refine ⟨pre, hpre, ?_⟩
          rw [htr, hkeep]
    · rw [if_neg hg] at h
      cases h
      exact ⟨[], by simp, rfl⟩

/-- C3 (amended): each SOF segment encountered in the marker walk overwrites
the previously recorded width, height and color depth, so whenever the
decoder returns a record (the walk completes without an out-of-range read)
the reported values are those of the LAST SOF segment encountered — the
defaults `0/0/24` when there is none — not the first.  Stated as: the traced
walk `jpegScanT` projects onto the decoder's walk; its final state carries
the last entry of the SOF trace (or the initial values for an empty trace);
every successful decode's record fields equal the last traced SOF's values;
and on every buffer of SOI plus two minimal SOF segments the second
segment's height, width, precision and component count determine the
record. -/
theorem claim3_amended_last_sof_wins :
    (∀ (b : Buf) (fuel o : Nat) (s : JpegState) (t : List (Nat × Nat × JSNum)),
      (jpegScanT b fuel o s t).map Prod.fst = jpegScan b fuel o s) ∧
    (∀ (b : Buf) (fuel o : Nat) (s : JpegState) (t : List (Nat × Nat × JSNum))
      (s' : JpegState) (t' : List (Nat × Nat × JSNum)),
      jpegScanT b fuel o s t = Except.ok (s', t') →
      ∃ pre, t' = t ++ pre ∧ stateTriple s' = (pre.getLast?).getD (stateTriple s)) ∧
    (∀ (b : Buf) (fn : String) (m : ImageMetadata),
      parseJPEG b fn = Except.ok m →
      ∃ s' sofs, jpegScanT b b.length 2 ⟨0, 0, JSNum.num 24, 72, 72⟩ [] =
          Except.ok (s', sofs) ∧
        m.width = (((sofs.getLast?).getD (0, 0, JSNum.num 24)).1 : Int) ∧
        m.height = (((sofs.getLast?).getD (0, 0, JSNum.num 24)).2.1 : Int) ∧
        m.colorDepth = ((sofs.getLast?).getD (0, 0, JSNum.num 24)).2.2) ∧
    (∀ p1 hh1 hl1 wh1 wl1 c1 p2 hh2 hl2 wh2 wl2 c2 : Nat,
      ∃ m, parseJPEG (twoSofJpeg p1 hh1 hl1 wh1 wl1 c1 p2 hh2 hl2 wh2 wl2 c2) "f.jpg" =
          Except.ok m ∧
        m.width = ((256 * wh2 + wl2 : Nat) : Int) ∧
        m.height = ((256 * hh2 + hl2 : Nat) : Int) ∧
        m.colorDepth = JSNum.num ((p2 * c2 : Nat) : Int) ∧
        m.error = none) := by
  refine ⟨jpegScanT_fst, jpegScanT_trace, ?_, ?_⟩
  · intro b fn m h
    obtain ⟨s0, h0, h1, hscan, hm⟩ := parseJPEG_ok h
    have hfst := jpegScanT_fst b b.length 2 ⟨0, 0, JSNum.num 24, 72, 72⟩ []
    rw [hscan] at hfst
    cases hT : jpegScanT b b.length 2 ⟨0, 0, JSNum.num 24, 72, 72⟩ [] with
    | error e =>
      rw [hT] at hfst
      simp [Except.map] at hfst
    | ok st =>
      obtain ⟨s', t'⟩ := st
      rw [hT] at hfst
      simp only [Except.map] at hfst
      have hs0 : s' = s0 := by injection hfst
      subst hs0
      obtain ⟨pre, hpre, htr⟩ := jpegScanT_trace b b.length 2 _ [] _ t' hT
      have hpre' : t' = pre := by
        rw [hpre]
        simp
      rw [← hpre'] at htr
      subst hm
      refine ⟨s', t', rfl, ?_, ?_, ?_⟩
      · exact congrArg (fun p : Nat × Nat × JSNum => ((p.1 : Int))) htr
      · exact congrArg (fun p : Nat × Nat × JSNum => ((p.2.1 : Int))) htr
      · exact congrArg (fun p : Nat × Nat × JSNum => p.2.2) htr
  · intro p1 hh1 hl1 wh1 wl1 c1 p2 hh2 hl2 wh2 wl2 c2
    exact ⟨_, rfl, rfl, rfl, rfl, rfl⟩

/-- The record `parseJPEG` produces for `cexTwoSofBuf`. -/
def cexTwoSofRecord : ImageMetadata :=
  { filename := "x.jpg", width := 5, height := 4,
    resolutionX := JSNum.num 72, resolutionY := JSNum.num 72,
    colorDepth := JSNum.num 24, compression := "JPEG",
    format := "JPEG", error := none }

/-- Witness for C3 (amended) at the concrete two-SOF buffer: the traced walk
collects the two SOF value triples in order, and the record carries exactly
the last one (width 5, height 4, color depth 24), not the first. -/
theorem claim3_witness :
    (∃ s' sofs, jpegScanT cexTwoSofBuf cexTwoSofBuf.length 2
        ⟨0, 0, JSNum.num 24, 72, 72⟩ [] = Except.ok (s', sofs) ∧
      cexTwoSofRecord.width = (((sofs.getLast?).getD (0, 0, JSNum.num 24)).1 : Int) ∧
      cexTwoSofRecord.height = (((sofs.getLast?).getD (0, 0, JSNum.num 24)).2.1 : Int) ∧
      cexTwoSofRecord.colorDepth = ((sofs.getLast?).getD (0, 0, JSNum.num 24)).2.2) ∧
    jpegScanT cexTwoSofBuf cexTwoSofBuf.length 2 ⟨0, 0, JSNum.num 24, 72, 72⟩ [] =
      Except.ok (⟨5, 4, JSNum.num 24, 72, 72⟩,
        [(2, 1, JSNum.num 8), (5, 4, JSNum.num 24)]) :=
  ⟨claim3_amended_last_sof_wins.2.2.1 cexTwoSofBuf "x.jpg" cexTwoSofRecord (by decide),
   by decide⟩

/-! ### Claim C8: TIFF resolution rationals and the centimeter conversion -/

theorem roundCmInt_natCast (k : Nat) :
    roundCmInt (k : Int) = (((508 * k + 100) / 200 : Nat) : Int) := by
  unfold roundCmInt
  have h1 : (508 * (k : Int) + 100) = ((508 * k + 100 : Nat) : Int) := by
    push_cast
    ring
  rw [h1, Int.fdiv_eq_tdiv (by positivity) (by positivity)]
  rw [show ((200 : Int)) = ((200 : Nat) : Int) from rfl]
  exact (Int.ofNat_tdiv _ _).symm

/-- A big-endian ("MM") TIFF whose IFD has three entries: XResolution
(tag 282, type RATIONAL, value offset pointing at byte 46), YResolution
(tag 283, type RATIONAL, value offset pointing at byte 54) and
ResolutionUnit (tag 296) with value 3 (centimeters); the two rationals'
numerator and denominator bytes are the sixteen parameters. -/
def tiffMMXY (xn0 xn1 xn2 xn3 xd0 xd1 xd2 xd3 yn0 yn1 yn2 yn3 yd0 yd1 yd2 yd3 : Nat) : Buf :=
  [77, 77, 0, 42, 0, 0, 0, 8,
   0, 3,
   1, 26, 0, 5, 0, 0, 0, 1, 0, 0, 0, 46,
   1, 27, 0, 5, 0, 0, 0, 1, 0, 0, 0, 54,
   1, 40, 0, 3, 0, 0, 0, 1, 0, 3, 0, 0,
   xn0, xn1, xn2, xn3, xd0, xd1, xd2, xd3,
   yn0, yn1, yn2, yn3, yd0, yd1, yd2, yd3]

/-- C8: each TIFF resolution tag (282 for X, 283 for Y) is read as a rational
through a 4-byte offset to a numerator and denominator and stored, already
rounded, as `round(numerator/denominator)`; the IFD entry itself applies no
unit conversion (and leaves the resolution unit and the other axis
unchanged), while `parseTIFF` applies the `×2.54` conversion exactly once
after the entry loop when the unit is 3: on the big-endian family `tiffMMXY`
with nonzero denominators the reported `resolutionX` and `resolutionY` are
`round(2.54 × round(num/den))` of their respective rationals. -/
theorem claim8_tiff_resolution :
    (∀ (le : Bool) (b : Buf) (eo : Nat) (s s' : TiffState),
      readU16 le b eo = some 282 → tiffEntry le b eo s = Except.ok s' →
      ∃ p n d, readU32 le b (eo + 8) = some p ∧ readU32 le b p = some n ∧
        readU32 le b (p + 4) = some d ∧
        s'.resX = jsRoundDiv n d ∧ s'.resY = s.resY ∧
        s'.resolutionUnit = s.resolutionUnit ∧
        s'.width = s.width ∧ s'.height = s.height) ∧
    (∀ (le : Bool) (b : Buf) (eo : Nat) (s s' : TiffState),
      readU16 le b eo = some 283 → tiffEntry le b eo s = Except.ok s' →
      ∃ p n d, readU32 le b (eo + 8) = some p ∧ readU32 le b p = some n ∧
        readU32 le b (p + 4) = some d ∧
        s'.resY = jsRoundDiv n d ∧ s'.resX = s.resX ∧
        s'.resolutionUnit = s.resolutionUnit ∧
        s'.width = s.width ∧ s'.height = s.height) ∧
    (∀ (xn0 xn1 xn2 xn3 xd0 xd1 xd2 xd3 yn0 yn1 yn2 yn3 yd0 yd1 yd2 yd3 : Nat)
      (fn : String),
      0 < 16777216 * xd0 + 65536 * xd1 + 256 * xd2 + xd3 →
      0 < 16777216 * yd0 + 65536 * yd1 + 256 * yd2 + yd3 →
      ∃ m, parseTIFF
          (tiffMMXY xn0 xn1 xn2 xn3 xd0 xd1 xd2 xd3 yn0 yn1 yn2 yn3 yd0 yd1 yd2 yd3)
          fn = Except.ok m ∧
        m.resolutionX = JSNum.num
          ((((508 * ((2 * (16777216 * xn0 + 65536 * xn1 + 256 * xn2 + xn3) +
                (16777216 * xd0 + 65536 * xd1 + 256 * xd2 + xd3)) /
              (2 * (16777216 * xd0 + 65536 * xd1 + 256 * xd2 + xd3))) + 100) / 200 : Nat)) : Int) ∧
        m.resolutionY = JSNum.num
          ((((508 * ((2 * (16777216 * yn0 + 65536 * yn1 + 256 * yn2 + yn3) +
                (16777216 * yd0 + 65536 * yd1 + 256 * yd2 + yd3)) /
              (2 * (16777216 * yd0 + 65536 * yd1 + 256 * yd2 + yd3))) + 100) / 200 : Nat)) : Int) ∧
        m.error = none) := by
  refine ⟨?_, ?_, ?_⟩
  · intro le b eo s s' htag h
    unfold tiffEntry at h
    obtain ⟨tag, ht, h⟩ := bindOk h
    rw [orThrow_ok_iff] at ht
    rw [htag] at ht
    cases ht
    obtain ⟨ty, hty, h⟩ := bindOk h
    obtain ⟨cnt, hcnt, h⟩ := bindOk h
    simp only [reduceIte] at h
    obtain ⟨p, hp, h⟩ := bindOk h
    obtain ⟨n, hn, h⟩ := bindOk h
    obtain ⟨d, hd, h⟩ := bindOk h
    rw [orThrow_ok_iff] at hp hn hd
    cases h
    exact ⟨p, n, d, hp, hn, hd, rfl, rfl, rfl, rfl, rfl⟩
  · intro le b eo s s' htag h
    unfold tiffEntry at h
    obtain ⟨tag, ht, h⟩ := bindOk h
    rw [orThrow_ok_iff] at ht
    rw [htag] at ht
    cases ht
    obtain ⟨ty, hty, h⟩ := bindOk h
    obtain ⟨cnt, hcnt, h⟩ := bindOk h
    simp only [reduceIte] at h
    obtain ⟨p, hp, h⟩ := bindOk h
    obtain ⟨n, hn, h⟩ := bindOk h
    obtain ⟨d, hd, h⟩ := bindOk h
    rw [orThrow_ok_iff] at hp hn hd
    cases h
    exact ⟨p, n, d, hp, hn, hd, rfl, rfl, rfl, rfl, rfl⟩
  · intro xn0 xn1 xn2 xn3 xd0 xd1 xd2 xd3 yn0 yn1 yn2 yn3 yd0 yd1 yd2 yd3 fn hXD hYD
    have heval : parseTIFF
        (tiffMMXY xn0 xn1 xn2 xn3 xd0 xd1 xd2 xd3 yn0 yn1 yn2 yn3 yd0 yd1 yd2 yd3)
        fn = Except.ok
        { filename := fn, width := 0, height := 0,
          resolutionX := jsRoundCm (jsRoundDiv
            (16777216 * xn0 + 65536 * xn1 + 256 * xn2 + xn3)
            (16777216 * xd0 + 65536 * xd1 + 256 * xd2 + xd3)),
          resolutionY := jsRoundCm (jsRoundDiv
            (16777216 * yn0 + 65536 * yn1 + 256 * yn2 + yn3)
            (16777216 * yd0 + 65536 * yd1 + 256 * yd2 + yd3)),
          colorDepth := JSNum.num 1, compression := "None",
          format := "TIFF", error := none } := rfl
    refine ⟨_, heval, ?_, ?_, rfl⟩
    · show jsRoundCm (jsRoundDiv _ _) = _
      rw [jsRoundDiv, if_neg (by omega)]
      show JSNum.num (roundCmInt _) = _
      rw [roundCmInt_natCast]
    · show jsRoundCm (jsRoundDiv _ _) = _
      rw [jsRoundDiv, if_neg (by omega)]
      show JSNum.num (roundCmInt _) = _
      rw [roundCmInt_natCast]

/-- Witness for C8: under byte order "MM" with resolution unit 3,
`XResolution = 100/1` yields `resolutionX = round(100 × 2.54) = 254` and
`YResolution = 300/2` yields `resolutionY = round(150 × 2.54) = 381`. -/
theorem claim8_witness :
    ∃ m, parseTIFF (tiffMMXY 0 0 0 100 0 0 0 1 0 0 1 44 0 0 0 2) "w.tif" =
        Except.ok m ∧
      m.resolutionX = JSNum.num 254 ∧ m.resolutionY = JSNum.num 381 ∧
      m.error = none := by
  obtain ⟨m, hm, hx, hy, he⟩ :=
    claim8_tiff_resolution.2.2 0 0 0 100 0 0 0 1 0 0 1 44 0 0 0 2 "w.tif"
      (by decide) (by decide)
  refine ⟨m, hm, ?_, ?_, he⟩
  · rw [hx]
    decide
  · rw [hy]
    decide

end ImageParser
